import Mathlib

/-!
Verification development for the printed-edges compositing service.

The definitions below are a shallow embedding of the Python source:
* `src/python-service/app.py` — `process_pdf_files`, `process_pdf`,
  `process_pdf_files_multi_edge`;
* `src/api/process-pdf.py` — `process_pdf`;
* `src/api/process-python.py` — `process_pdf_simple`.

Numeric conventions: PDF point coordinates (Python floats) are embedded as
rationals `ℚ`; pixel counts are `ℕ`/`ℤ`.  Python `int()` on a float
truncates toward zero, embedded as `pyInt`.  Python `//` on naturals is
`Nat` division.  Python float arithmetic is embedded exactly where its
rounding is observable (the slice-width expression and the thickness
literals): `fl` rounds an exact rational to the nearest binary64 value
(round to nearest, ties to even, with a 53-bit significand and unbounded
exponent — identical to IEEE binary64 on the normal range, which contains
every value these expressions produce), and each float operation of the
source is the exact rational operation followed by `fl`.  PIL image operations (`crop`, `resize`,
`ImageOps.mirror`) never fail — `Image.crop` silently pads a box that
extends beyond the image bounds — so they are embedded as total symbolic
constructors of `Img`.  The only run-time failures of the compositing
loops are the explicit `raise ValueError(...)` statements (caught by the
surrounding `except`, yielding an error result), a `ZeroDivisionError`
when `total_thickness_inches` is zero, and the `KeyError` when side-only
mode is given no side artwork; these are the constructors of `Err`.
-/

namespace PrintedEdges

/-- Python `int()` applied to a rational: truncation toward zero. -/
def pyInt (q : ℚ) : ℤ :=
  if 0 ≤ q then ⌊q⌋ else -⌊-q⌋

theorem pyInt_of_nonneg (q : ℚ) (h : 0 ≤ q) : pyInt q = ⌊q⌋ := by
  simp [pyInt, h]

/-- Round to nearest integer, ties to the even integer (IEEE 754 default). -/
def roundHalfEven (x : ℚ) : ℤ :=
  if x - ⌊x⌋ < 1 / 2 then ⌊x⌋
  else if 1 / 2 < x - ⌊x⌋ then ⌊x⌋ + 1
  else if ⌊x⌋ % 2 = 0 then ⌊x⌋ else ⌊x⌋ + 1

theorem abs_roundHalfEven_sub_le (x : ℚ) : |(roundHalfEven x : ℚ) - x| ≤ 1 / 2 := by
  have h0 : ((⌊x⌋ : ℤ) : ℚ) ≤ x := Int.floor_le x
  have h1 : x < ((⌊x⌋ : ℤ) : ℚ) + 1 := Int.lt_floor_add_one x
  unfold roundHalfEven
  split
  · next h =>
    rw [abs_le]
    constructor <;> linarith
  · next h =>
    split
    · next h2 =>
      rw [abs_le]
      push_cast
      constructor <;> linarith
    · next h2 =>
      have he : x - ((⌊x⌋ : ℤ) : ℚ) = 1 / 2 := le_antisymm (not_lt.mp h2) (not_lt.mp h)
      split
      · rw [abs_le]
        constructor <;> linarith
      · rw [abs_le]
        push_cast
        constructor <;> linarith

/-- IEEE-754 binary64 rounding (round to nearest, ties to even) of an exact
rational: a 53-bit significand scaled by a power of two, with unbounded
exponent range. -/
def fl (q : ℚ) : ℚ :=
  if q = 0 then 0
  else if 0 < q then
    (roundHalfEven (q / 2 ^ (Int.log 2 q - 52)) : ℚ) * 2 ^ (Int.log 2 q - 52)
  else
    -((roundHalfEven (-q / 2 ^ (Int.log 2 (-q) - 52)) : ℚ) * 2 ^ (Int.log 2 (-q) - 52))

theorem fl_zero : fl 0 = 0 := by
  unfold fl
  simp

theorem fl_of_pos (q : ℚ) (hq : 0 < q) :
    fl q = (roundHalfEven (q / 2 ^ (Int.log 2 q - 52)) : ℚ) * 2 ^ (Int.log 2 q - 52) := by
  unfold fl
  rw [if_neg (ne_of_gt hq), if_pos hq]

theorem log2_eq_of (q : ℚ) (k : ℤ) (hq : 0 < q) (h1 : 2 ^ k ≤ q) (h2 : q < 2 ^ (k + 1)) :
    Int.log 2 q = k := by
  have hcast : ((2 : ℕ) : ℚ) = (2 : ℚ) := by norm_cast
  have hA : ((2 : ℕ) : ℚ) ^ Int.log 2 q ≤ q := Int.zpow_log_le_self (by norm_num) hq
  have hB : q < ((2 : ℕ) : ℚ) ^ (Int.log 2 q + 1) := Int.lt_zpow_succ_log_self (by norm_num) q
  rw [hcast] at hA hB
  by_contra hne
  rcases lt_or_gt_of_ne hne with hlt | hgt
  · have hle : (2 : ℚ) ^ (Int.log 2 q + 1) ≤ 2 ^ k :=
      zpow_le_zpow_right₀ (by norm_num) (by omega)
    linarith
  · have hle : (2 : ℚ) ^ (k + 1) ≤ 2 ^ Int.log 2 q :=
      zpow_le_zpow_right₀ (by norm_num) (by omega)
    linarith

theorem fl_eval (q : ℚ) (k m : ℤ) (hq : 0 < q)
    (h1 : 2 ^ k ≤ q) (h2 : q < 2 ^ (k + 1))
    (hm : roundHalfEven (q / 2 ^ (k - 52)) = m) :
    fl q = (m : ℚ) * 2 ^ (k - 52) := by
  rw [fl_of_pos q hq, log2_eq_of q k hq h1 h2, hm]

theorem fl_err (q : ℚ) (hq : 0 < q) : |fl q - q| ≤ q / 2 ^ 53 := by
  rw [fl_of_pos q hq]
  set k := Int.log 2 q with hk
  have h2e : (0 : ℚ) < 2 ^ (k - 52) := zpow_pos (by norm_num) _
  have hround := abs_roundHalfEven_sub_le (q / 2 ^ (k - 52))
  have expand : (roundHalfEven (q / 2 ^ (k - 52)) : ℚ) * 2 ^ (k - 52) - q
      = ((roundHalfEven (q / 2 ^ (k - 52)) : ℚ) - q / 2 ^ (k - 52)) * 2 ^ (k - 52) := by
    field_simp
  rw [expand, abs_mul, abs_of_pos h2e]
  have hlog : (2 : ℚ) ^ k ≤ q := by
    have h := Int.zpow_log_le_self (b := 2) (R := ℚ) (by norm_num) hq
    rwa [show ((2 : ℕ) : ℚ) = (2 : ℚ) from by norm_cast, ← hk] at h
  have e1 : (1 / 2 : ℚ) * 2 ^ (k - 52) = 2 ^ (k - 53) := by
    rw [show k - 52 = (k - 53) + 1 from by ring, zpow_add_one₀ (by norm_num : (2 : ℚ) ≠ 0)]
    ring
  have e2 : (2 : ℚ) ^ (k - 53) = 2 ^ k / 2 ^ (53 : ℕ) := by
    rw [div_eq_mul_inv, ← zpow_natCast (2 : ℚ) 53, ← zpow_neg,
      ← zpow_add₀ (by norm_num : (2 : ℚ) ≠ 0)]
    congr 1
  calc |(roundHalfEven (q / 2 ^ (k - 52)) : ℚ) - q / 2 ^ (k - 52)| * 2 ^ (k - 52)
      ≤ (1 / 2) * 2 ^ (k - 52) := mul_le_mul_of_nonneg_right hround h2e.le
    _ = 2 ^ (k - 53) := e1
    _ = 2 ^ k / 2 ^ (53 : ℕ) := e2
    _ ≤ q / 2 ^ (53 : ℕ) := by gcongr
  
theorem fl_pos (q : ℚ) (hq : 0 < q) : 0 < fl q := by
  have h := abs_le.mp (fl_err q hq)
  have hlt : q / 2 ^ 53 < q := div_lt_self hq (by norm_num)
  linarith [h.1]

theorem roundHalfEven_eq_of_lt (x : ℚ) (n : ℤ) (h1 : (n : ℚ) ≤ x) (h2 : x < (n : ℚ) + 1 / 2) :
    roundHalfEven x = n := by
  have hf : ⌊x⌋ = n := by
    rw [Int.floor_eq_iff]
    exact ⟨h1, by linarith⟩
  unfold roundHalfEven
  rw [hf, if_pos (by push_cast; linarith : x - ((n : ℤ) : ℚ) < 1 / 2)]

theorem roundHalfEven_eq_of_gt (x : ℚ) (n : ℤ) (h1 : (n : ℚ) + 1 / 2 < x) (h2 : x < (n : ℚ) + 1) :
    roundHalfEven x = n + 1 := by
  have hf : ⌊x⌋ = n := by
    rw [Int.floor_eq_iff]
    exact ⟨by linarith, by push_cast; linarith⟩
  unfold roundHalfEven
  rw [hf, if_neg (by push_cast; linarith : ¬ x - ((n : ℤ) : ℚ) < 1 / 2),
    if_pos (by push_cast; linarith : (1 / 2 : ℚ) < x - ((n : ℤ) : ℚ))]

theorem roundHalfEven_eq_tie_odd (x : ℚ) (n : ℤ) (h1 : x = (n : ℚ) + 1 / 2)
    (h2 : ¬ n % 2 = 0) : roundHalfEven x = n + 1 := by
  have hf : ⌊x⌋ = n := by
    rw [Int.floor_eq_iff]
    constructor
    · rw [h1]; linarith
    · rw [h1]; push_cast; linarith
  unfold roundHalfEven
  rw [hf, if_neg (by rw [h1]; push_cast; norm_num : ¬ x - ((n : ℤ) : ℚ) < 1 / 2),
    if_neg (by rw [h1]; push_cast; norm_num : ¬ (1 / 2 : ℚ) < x - ((n : ℤ) : ℚ)), if_neg h2]

theorem fl_std_literal : fl (2 / 625 : ℚ) = 7378697629483821 / 2 ^ 61 := by
  have hx : (2 / 625 : ℚ) / 2 ^ ((-9 : ℤ) - 52) = 4611686018427387904 / 625 := by
    norm_num
  have hm : roundHalfEven ((2 / 625 : ℚ) / 2 ^ ((-9 : ℤ) - 52)) = (7378697629483820 + 1) := by
    rw [hx]
    exact roundHalfEven_eq_of_gt _ 7378697629483820 (by norm_num) (by norm_num)
  have h := fl_eval (2 / 625 : ℚ) (-9) (7378697629483820 + 1) (by norm_num) (by norm_num) (by norm_num) hm
  rw [h]
  norm_num

theorem fl_prem_literal : fl (37 / 10000 : ℚ) = 2132904783522667 / 2 ^ 59 := by
  have hx : (37 / 10000 : ℚ) / 2 ^ ((-9 : ℤ) - 52) = 5332261958806667264 / 625 := by
    norm_num
  have hm : roundHalfEven ((37 / 10000 : ℚ) / 2 ^ ((-9 : ℤ) - 52)) = (8531619134090667 + 1) := by
    rw [hx]
    exact roundHalfEven_eq_of_gt _ 8531619134090667 (by norm_num) (by norm_num)
  have h := fl_eval (37 / 10000 : ℚ) (-9) (8531619134090667 + 1) (by norm_num) (by norm_num) (by norm_num) hm
  rw [h]
  norm_num

theorem fl_std_value : fl (32 / 10000 : ℚ) = 7378697629483821 / 2 ^ 61 := by
  rw [show (32 / 10000 : ℚ) = 2 / 625 from by norm_num, fl_std_literal]

/-- `BLEED_INCHES = 0.125` (app.py line 16). -/
def BLEED_INCHES : ℚ := 125 / 1000

/-- `SAFETY_BUFFER_INCHES = 0.125` (app.py line 17). -/
def SAFETY_BUFFER_INCHES : ℚ := 125 / 1000

/-- `POINTS_PER_INCH = 72` (app.py line 18). -/
def POINTS_PER_INCH : ℚ := 72

/-- `BLEED_POINTS = BLEED_INCHES * POINTS_PER_INCH` (app.py line 19). -/
def BLEED_POINTS : ℚ := BLEED_INCHES * POINTS_PER_INCH

/-- `SAFETY_BUFFER_POINTS = SAFETY_BUFFER_INCHES * POINTS_PER_INCH` (app.py line 20). -/
def SAFETY_BUFFER_POINTS : ℚ := SAFETY_BUFFER_INCHES * POINTS_PER_INCH

/-- `PAGE_THICKNESS.get(key, 0.0032)`: the thickness table of app.py
lines 23-27 with the default used at line 78.  The stored values are the
binary64 doubles denoted by the decimal literals `0.0032` and `0.0037`.
The argument is the already-lowercased page type string. -/
def pageThicknessLookup (key : String) : ℚ :=
  if key = "bw" then fl (32 / 10000)
  else if key = "standard" then fl (32 / 10000)
  else if key = "premium" then fl (37 / 10000)
  else fl (32 / 10000)

theorem pageThicknessLookup_pos (key : String) : 0 < pageThicknessLookup key := by
  unfold pageThicknessLookup
  split
  · exact fl_pos _ (by norm_num)
  · split
    · exact fl_pos _ (by norm_num)
    · split
      · exact fl_pos _ (by norm_num)
      · exact fl_pos _ (by norm_num)

theorem pageThicknessLookup_standard :
    pageThicknessLookup "standard" = 7378697629483821 / 2 ^ 61 := by
  unfold pageThicknessLookup
  rw [if_neg (by decide), if_pos rfl]
  exact fl_std_value

theorem pageThicknessLookup_premium :
    pageThicknessLookup "premium" = 2132904783522667 / 2 ^ 59 := by
  unfold pageThicknessLookup
  rw [if_neg (by decide), if_neg (by decide), if_pos rfl]
  exact fl_prem_literal

theorem pageThicknessLookup_cases (s : String) :
    pageThicknessLookup s = 7378697629483821 / 2 ^ 61
    ∨ pageThicknessLookup s = 2132904783522667 / 2 ^ 59 := by
  unfold pageThicknessLookup
  split
  · exact Or.inl fl_std_value
  · split
    · exact Or.inl fl_std_value
    · split
      · exact Or.inr fl_prem_literal
      · exact Or.inl fl_std_value

theorem pageThicknessLookup_default (s : String) (h1 : s ≠ "bw") (h2 : s ≠ "standard")
    (h3 : s ≠ "premium") : pageThicknessLookup s = pageThicknessLookup "standard" := by
  rw [pageThicknessLookup_standard]
  unfold pageThicknessLookup
  rw [if_neg h1, if_neg h2, if_neg h3]
  exact fl_std_value

/-- `bleed_type` parameter: `"add_bleed"` or anything else (`existing_bleed`). -/
inductive BleedType where
  | add_bleed
  | existing_bleed
deriving DecidableEq

/-- A `fitz.Rect(x0, y0, x1, y1)` value. -/
structure Rect where
  x0 : ℚ
  y0 : ℚ
  x1 : ℚ
  y1 : ℚ
deriving DecidableEq

/-- `new_width` (app.py lines 64-71): bleed is added to the outer edge only. -/
def newWidth (bt : BleedType) (originalWidth : ℚ) : ℚ :=
  match bt with
  | .add_bleed => originalWidth + BLEED_INCHES * POINTS_PER_INCH
  | .existing_bleed => originalWidth

/-- `new_height` (app.py lines 64-71): bleed is added to top and bottom. -/
def newHeight (bt : BleedType) (originalHeight : ℚ) : ℚ :=
  match bt with
  | .add_bleed => originalHeight + 2 * (BLEED_INCHES * POINTS_PER_INCH)
  | .existing_bleed => originalHeight

/-- `content_rect` (app.py lines 95-113): even page index = right/recto page,
content flush to the spine side; odd page index = left/verso page, content
offset by the bleed amount. -/
def contentRect (bt : BleedType) (originalWidth originalHeight : ℚ) (pageNum : ℕ) : Rect :=
  match bt with
  | .add_bleed =>
    if pageNum % 2 = 0 then
      ⟨0, BLEED_INCHES * POINTS_PER_INCH, originalWidth,
        BLEED_INCHES * POINTS_PER_INCH + originalHeight⟩
    else
      ⟨BLEED_INCHES * POINTS_PER_INCH, BLEED_INCHES * POINTS_PER_INCH,
        BLEED_INCHES * POINTS_PER_INCH + originalWidth,
        BLEED_INCHES * POINTS_PER_INCH + originalHeight⟩
  | .existing_bleed => ⟨0, 0, originalWidth, originalHeight⟩

/-- `single_leaf_thickness_pixels = max(1, int(edge_width * (page_thickness_inches
/ total_thickness_inches)))` with `total_thickness_inches = page_thickness_inches
* num_leaves` (app.py lines 123-124), in binary64 arithmetic: the `int` operands
`edge_width` and `num_leaves` convert to doubles exactly (they are far below
`2^53`); the product `t * num_leaves`, the quotient and the outer product each
round to the nearest double; `int()` then truncates toward zero. -/
def singleLeafThicknessPixels (edgeWidth : ℕ) (t : ℚ) (numLeaves : ℕ) : ℤ :=
  max 1 (pyInt (fl ((edgeWidth : ℚ) * fl (t / fl (t * (numLeaves : ℚ))))))

/-- `slice_x_start = leaf_number * single_leaf_thickness_pixels` (app.py line 127). -/
def sliceXStart (leafNumber : ℕ) (w : ℤ) : ℤ := (leafNumber : ℤ) * w

/-- `slice_x_end = slice_x_start + single_leaf_thickness_pixels` (app.py line 128). -/
def sliceXEnd (leafNumber : ℕ) (w : ℤ) : ℤ := sliceXStart leafNumber w + w

/-- Computes the floor of a quotient of naturals embedded in `ℚ`, given a
division witness. -/
theorem floor_div_nat_eq (a b q r : ℕ) (hb : 0 < b) (h : a = b * q + r) (hr : r < b) :
    ⌊(a : ℚ) / (b : ℚ)⌋ = q := by
  have hb0 : (0 : ℚ) < (b : ℚ) := by exact_mod_cast hb
  rw [Int.floor_eq_iff]
  constructor
  · rw [le_div_iff₀ hb0]
    push_cast [h]
    nlinarith [hr]
  · rw [div_lt_iff₀ hb0]
    push_cast [h]
    have : (r : ℚ) < (b : ℚ) := by exact_mod_cast hr
    nlinarith

theorem sliceWidth_ge_one (Ew : ℕ) (t : ℚ) (L : ℕ) :
    1 ≤ singleLeafThicknessPixels Ew t L :=
  le_max_left _ _

theorem sliceWindows_contiguous (w : ℤ) (l : ℕ) :
    sliceXEnd l w = sliceXStart (l + 1) w := by
  unfold sliceXEnd sliceXStart
  push_cast
  ring

theorem sliceWindows_disjoint (w : ℤ) (hw : 1 ≤ w) (l1 l2 : ℕ) (hne : l1 ≠ l2) (x : ℤ)
    (h1 : sliceXStart l1 w ≤ x) (h2 : x < sliceXEnd l1 w) :
    ¬(sliceXStart l2 w ≤ x ∧ x < sliceXEnd l2 w) := by
  rintro ⟨h3, h4⟩
  simp only [sliceXStart, sliceXEnd] at h1 h2 h3 h4
  have hw0 : (0 : ℤ) ≤ w := le_trans zero_le_one hw
  rcases Nat.lt_or_ge l1 l2 with hlt | hge
  · have hc : ((l1 : ℤ) + 1) ≤ (l2 : ℤ) := by exact_mod_cast hlt
    nlinarith [mul_le_mul_of_nonneg_right hc hw0]
  · have hlt2 : l2 < l1 := lt_of_le_of_ne hge (Ne.symm hne)
    have hc : ((l2 : ℤ) + 1) ≤ (l1 : ℤ) := by exact_mod_cast hlt2
    nlinarith [mul_le_mul_of_nonneg_right hc hw0]

theorem sliceWindows_cover (w : ℤ) (hw : 1 ≤ w) (L : ℕ) (x : ℤ) :
    (0 ≤ x ∧ x < w * (L : ℤ)) ↔
      ∃ l : ℕ, l < L ∧ sliceXStart l w ≤ x ∧ x < sliceXEnd l w := by
  constructor
  · rintro ⟨hx0, hxL⟩
    have hwn : 0 < w.toNat := by omega
    refine ⟨x.toNat / w.toNat, ?_, ?_, ?_⟩
    · have hx : x.toNat < w.toNat * L := by
        have : (x.toNat : ℤ) < (w.toNat : ℤ) * L := by
          rw [Int.toNat_of_nonneg hx0]
          rw [Int.toNat_of_nonneg (by omega : (0:ℤ) ≤ w)]
          exact hxL
        exact_mod_cast this
      exact Nat.div_lt_of_lt_mul hx
    · simp only [sliceXStart]
      have h1 : x.toNat / w.toNat * w.toNat ≤ x.toNat := Nat.div_mul_le_self _ _
      have h2 : ((x.toNat / w.toNat : ℕ) : ℤ) * ((w.toNat : ℕ) : ℤ) ≤ (x.toNat : ℤ) := by
        exact_mod_cast h1
      rw [Int.toNat_of_nonneg hx0] at h2
      rw [Int.toNat_of_nonneg (by omega : (0:ℤ) ≤ w)] at h2
      exact h2
    · simp only [sliceXEnd, sliceXStart]
      have hmod := Nat.div_add_mod x.toNat w.toNat
      have hlt := Nat.mod_lt x.toNat hwn
      have h3 : x.toNat < w.toNat * (x.toNat / w.toNat) + w.toNat := by omega
      have h4 : (x.toNat : ℤ) < ((w.toNat : ℕ) : ℤ) * ((x.toNat / w.toNat : ℕ) : ℤ) + ((w.toNat : ℕ) : ℤ) := by
        exact_mod_cast h3
      rw [Int.toNat_of_nonneg hx0] at h4
      rw [Int.toNat_of_nonneg (by omega : (0:ℤ) ≤ w)] at h4
      linarith [mul_comm ((x.toNat / w.toNat : ℕ) : ℤ) w]
  · rintro ⟨l, hlL, hl, hr⟩
    simp only [sliceXStart, sliceXEnd] at hl hr
    have hcast : ((l : ℤ) + 1) ≤ (L : ℤ) := by exact_mod_cast hlL
    constructor
    · nlinarith
    · nlinarith

theorem fl_1000_std_7_total : fl (51650883406386747 / 2 ^ 61 : ℚ) = 6456360425798343 / 2 ^ 58 := by
  have hx : (51650883406386747 / 2 ^ 61 : ℚ) / 2 ^ ((-6 : ℤ) - 52) = 51650883406386747 / 2 ^ 3 := by
    norm_num
  have hm : roundHalfEven ((51650883406386747 / 2 ^ 61 : ℚ) / 2 ^ ((-6 : ℤ) - 52)) = 6456360425798343 := by
    rw [hx]
    exact roundHalfEven_eq_of_lt _ 6456360425798343 (by norm_num) (by norm_num)
  have h := fl_eval (51650883406386747 / 2 ^ 61 : ℚ) (-6) 6456360425798343 (by norm_num) (by norm_num) (by norm_num) hm
  rw [h]
  norm_num

theorem fl_1000_std_7_quot : fl (2459565876494607 / 17216961135462248 : ℚ) = 5146971002709139 / 2 ^ 55 := by
  have hx : (2459565876494607 / 17216961135462248 : ℚ) / 2 ^ ((-3 : ℤ) - 52) = 11076899964874299471689334915072 / 2152120141932781 := by
    norm_num
  have hm : roundHalfEven ((2459565876494607 / 17216961135462248 : ℚ) / 2 ^ ((-3 : ℤ) - 52)) = (5146971002709138 + 1) := by
    rw [hx]
    exact roundHalfEven_eq_of_gt _ 5146971002709138 (by norm_num) (by norm_num)
  have h := fl_eval (2459565876494607 / 17216961135462248 : ℚ) (-3) (5146971002709138 + 1) (by norm_num) (by norm_num) (by norm_num) hm
  rw [h]
  norm_num

theorem fl_1000_std_7_prod : fl (643371375338642375 / 2 ^ 52 : ℚ) = 628292358729143 / 2 ^ 42 := by
  have hx : (643371375338642375 / 2 ^ 52 : ℚ) / 2 ^ ((7 : ℤ) - 52) = 643371375338642375 / 2 ^ 7 := by
    norm_num
  have hm : roundHalfEven ((643371375338642375 / 2 ^ 52 : ℚ) / 2 ^ ((7 : ℤ) - 52)) = (5026338869833143 + 1) := by
    rw [hx]
    exact roundHalfEven_eq_of_gt _ 5026338869833143 (by norm_num) (by norm_num)
  have h := fl_eval (643371375338642375 / 2 ^ 52 : ℚ) 7 (5026338869833143 + 1) (by norm_num) (by norm_num) (by norm_num) hm
  rw [h]
  norm_num

theorem sliceWidth_1000_std_7 :
    singleLeafThicknessPixels 1000 (7378697629483821 / 2 ^ 61 : ℚ) 7 = 142 := by
  unfold singleLeafThicknessPixels
  have hA : ((7378697629483821 / 2 ^ 61 : ℚ) * ((7 : ℕ) : ℚ)) = 51650883406386747 / 2 ^ 61 := by
    norm_num
  rw [hA, fl_1000_std_7_total]
  have hQ : ((7378697629483821 / 2 ^ 61 : ℚ) / (6456360425798343 / 2 ^ 58)) = 2459565876494607 / 17216961135462248 := by
    norm_num
  rw [hQ, fl_1000_std_7_quot]
  have hP : (((1000 : ℕ) : ℚ) * (5146971002709139 / 2 ^ 55)) = 643371375338642375 / 2 ^ 52 := by
    norm_num
  rw [hP, fl_1000_std_7_prod]
  rw [pyInt_of_nonneg _ (by norm_num)]
  rw [show ⌊(628292358729143 / 2 ^ 42 : ℚ)⌋ = 142 from by rw [Int.floor_eq_iff] <;> norm_num]
  norm_num

theorem fl_1300_std_13_total : fl (95923069183289673 / 2 ^ 61 : ℚ) = 5995191823955605 / 2 ^ 57 := by
  have hx : (95923069183289673 / 2 ^ 61 : ℚ) / 2 ^ ((-5 : ℤ) - 52) = 95923069183289673 / 2 ^ 4 := by
    norm_num
  have hm : roundHalfEven ((95923069183289673 / 2 ^ 61 : ℚ) / 2 ^ ((-5 : ℤ) - 52)) = (5995191823955604 + 1) := by
    rw [hx]
    exact roundHalfEven_eq_of_gt _ 5995191823955604 (by norm_num) (by norm_num)
  have h := fl_eval (95923069183289673 / 2 ^ 61 : ℚ) (-5) (5995191823955604 + 1) (by norm_num) (by norm_num) (by norm_num) hm
  rw [h]
  norm_num

theorem fl_1300_std_13_quot : fl (7378697629483821 / 95923069183289680 : ℚ) = 5542891849071379 / 2 ^ 56 := by
  have hx : (7378697629483821 / 95923069183289680 : ℚ) / 2 ^ ((-4 : ℤ) - 52) = 33230699894622898415068004745216 / 5995191823955605 := by
    norm_num
  have hm : roundHalfEven ((7378697629483821 / 95923069183289680 : ℚ) / 2 ^ ((-4 : ℤ) - 52)) = 5542891849071379 := by
    rw [hx]
    exact roundHalfEven_eq_of_lt _ 5542891849071379 (by norm_num) (by norm_num)
  have h := fl_eval (7378697629483821 / 95923069183289680 : ℚ) (-4) 5542891849071379 (by norm_num) (by norm_num) (by norm_num) hm
  rw [h]
  norm_num

theorem fl_1300_std_13_prod : fl (1801439850948198175 / 2 ^ 54 : ℚ) = 7036874417766399 / 2 ^ 46 := by
  have hx : (1801439850948198175 / 2 ^ 54 : ℚ) / 2 ^ ((6 : ℤ) - 52) = 1801439850948198175 / 2 ^ 8 := by
    norm_num
  have hm : roundHalfEven ((1801439850948198175 / 2 ^ 54 : ℚ) / 2 ^ ((6 : ℤ) - 52)) = 7036874417766399 := by
    rw [hx]
    exact roundHalfEven_eq_of_lt _ 7036874417766399 (by norm_num) (by norm_num)
  have h := fl_eval (1801439850948198175 / 2 ^ 54 : ℚ) 6 7036874417766399 (by norm_num) (by norm_num) (by norm_num) hm
  rw [h]
  norm_num

theorem sliceWidth_1300_std_13 :
    singleLeafThicknessPixels 1300 (7378697629483821 / 2 ^ 61 : ℚ) 13 = 99 := by
  unfold singleLeafThicknessPixels
  have hA : ((7378697629483821 / 2 ^ 61 : ℚ) * ((13 : ℕ) : ℚ)) = 95923069183289673 / 2 ^ 61 := by
    norm_num
  rw [hA, fl_1300_std_13_total]
  have hQ : ((7378697629483821 / 2 ^ 61 : ℚ) / (5995191823955605 / 2 ^ 57)) = 7378697629483821 / 95923069183289680 := by
    norm_num
  rw [hQ, fl_1300_std_13_quot]
  have hP : (((1300 : ℕ) : ℚ) * (5542891849071379 / 2 ^ 56)) = 1801439850948198175 / 2 ^ 54 := by
    norm_num
  rw [hP, fl_1300_std_13_prod]
  rw [pyInt_of_nonneg _ (by norm_num)]
  rw [show ⌊(7036874417766399 / 2 ^ 46 : ℚ)⌋ = 99 from by rw [Int.floor_eq_iff] <;> norm_num]
  norm_num

theorem fl_1000_std_5_total : fl (36893488147419105 / 2 ^ 61 : ℚ) = 1152921504606847 / 2 ^ 56 := by
  have hx : (36893488147419105 / 2 ^ 61 : ℚ) / 2 ^ ((-6 : ℤ) - 52) = 36893488147419105 / 2 ^ 3 := by
    norm_num
  have hm : roundHalfEven ((36893488147419105 / 2 ^ 61 : ℚ) / 2 ^ ((-6 : ℤ) - 52)) = 4611686018427388 := by
    rw [hx]
    exact roundHalfEven_eq_of_lt _ 4611686018427388 (by norm_num) (by norm_num)
  have h := fl_eval (36893488147419105 / 2 ^ 61 : ℚ) (-6) 4611686018427388 (by norm_num) (by norm_num) (by norm_num) hm
  rw [h]
  norm_num

theorem fl_1000_std_5_quot : fl (7378697629483821 / 36893488147419104 : ℚ) = 3602879701896397 / 2 ^ 54 := by
  have hx : (7378697629483821 / 36893488147419104 : ℚ) / 2 ^ ((-3 : ℤ) - 52) = 8307674973655724603767001186304 / 1152921504606847 := by
    norm_num
  have hm : roundHalfEven ((7378697629483821 / 36893488147419104 : ℚ) / 2 ^ ((-3 : ℤ) - 52)) = (7205759403792793 + 1) := by
    rw [hx]
    exact roundHalfEven_eq_of_gt _ 7205759403792793 (by norm_num) (by norm_num)
  have h := fl_eval (7378697629483821 / 36893488147419104 : ℚ) (-3) (7205759403792793 + 1) (by norm_num) (by norm_num) (by norm_num) hm
  rw [h]
  norm_num

theorem fl_1000_std_5_prod : fl (450359962737049625 / 2 ^ 51 : ℚ) = 200 := by
  have hx : (450359962737049625 / 2 ^ 51 : ℚ) / 2 ^ ((7 : ℤ) - 52) = 450359962737049625 / 2 ^ 6 := by
    norm_num
  have hm : roundHalfEven ((450359962737049625 / 2 ^ 51 : ℚ) / 2 ^ ((7 : ℤ) - 52)) = 7036874417766400 := by
    rw [hx]
    exact roundHalfEven_eq_of_lt _ 7036874417766400 (by norm_num) (by norm_num)
  have h := fl_eval (450359962737049625 / 2 ^ 51 : ℚ) 7 7036874417766400 (by norm_num) (by norm_num) (by norm_num) hm
  rw [h]
  norm_num

theorem sliceWidth_1000_std_5 :
    singleLeafThicknessPixels 1000 (7378697629483821 / 2 ^ 61 : ℚ) 5 = 200 := by
  unfold singleLeafThicknessPixels
  have hA : ((7378697629483821 / 2 ^ 61 : ℚ) * ((5 : ℕ) : ℚ)) = 36893488147419105 / 2 ^ 61 := by
    norm_num
  rw [hA, fl_1000_std_5_total]
  have hQ : ((7378697629483821 / 2 ^ 61 : ℚ) / (1152921504606847 / 2 ^ 56)) = 7378697629483821 / 36893488147419104 := by
    norm_num
  rw [hQ, fl_1000_std_5_quot]
  have hP : (((1000 : ℕ) : ℚ) * (3602879701896397 / 2 ^ 54)) = 450359962737049625 / 2 ^ 51 := by
    norm_num
  rw [hP, fl_1000_std_5_prod]
  rw [pyInt_of_nonneg _ (by norm_num)]
  rw [show ⌊(200 : ℚ)⌋ = 200 from by rw [Int.floor_eq_iff] <;> norm_num]
  norm_num

theorem fl_1000_prem_5_total : fl (10664523917613335 / 2 ^ 59 : ℚ) = 1333065489701667 / 2 ^ 56 := by
  have hx : (10664523917613335 / 2 ^ 59 : ℚ) / 2 ^ ((-6 : ℤ) - 52) = 10664523917613335 / 2 ^ 1 := by
    norm_num
  have hm : roundHalfEven ((10664523917613335 / 2 ^ 59 : ℚ) / 2 ^ ((-6 : ℤ) - 52)) = (5332261958806667 + 1) := by
    rw [hx]
    exact roundHalfEven_eq_tie_odd _ 5332261958806667 (by norm_num) (by norm_num)
  have h := fl_eval (10664523917613335 / 2 ^ 59 : ℚ) (-6) (5332261958806667 + 1) (by norm_num) (by norm_num) (by norm_num) hm
  rw [h]
  norm_num

theorem fl_1000_prem_5_quot : fl (2132904783522667 / 10664523917613336 : ℚ) = 7205759403792793 / 2 ^ 55 := by
  have hx : (2132904783522667 / 10664523917613336 : ℚ) / 2 ^ ((-3 : ℤ) - 52) = 9605749188289431537921223032832 / 1333065489701667 := by
    norm_num
  have hm : roundHalfEven ((2132904783522667 / 10664523917613336 : ℚ) / 2 ^ ((-3 : ℤ) - 52)) = (7205759403792792 + 1) := by
    rw [hx]
    exact roundHalfEven_eq_of_gt _ 7205759403792792 (by norm_num) (by norm_num)
  have h := fl_eval (2132904783522667 / 10664523917613336 : ℚ) (-3) (7205759403792792 + 1) (by norm_num) (by norm_num) (by norm_num) hm
  rw [h]
  norm_num

theorem fl_1000_prem_5_prod : fl (900719925474099125 / 2 ^ 52 : ℚ) = 7036874417766399 / 2 ^ 45 := by
  have hx : (900719925474099125 / 2 ^ 52 : ℚ) / 2 ^ ((7 : ℤ) - 52) = 900719925474099125 / 2 ^ 7 := by
    norm_num
  have hm : roundHalfEven ((900719925474099125 / 2 ^ 52 : ℚ) / 2 ^ ((7 : ℤ) - 52)) = 7036874417766399 := by
    rw [hx]
    exact roundHalfEven_eq_of_lt _ 7036874417766399 (by norm_num) (by norm_num)
  have h := fl_eval (900719925474099125 / 2 ^ 52 : ℚ) 7 7036874417766399 (by norm_num) (by norm_num) (by norm_num) hm
  rw [h]
  norm_num

theorem sliceWidth_1000_prem_5 :
    singleLeafThicknessPixels 1000 (2132904783522667 / 2 ^ 59 : ℚ) 5 = 199 := by
  unfold singleLeafThicknessPixels
  have hA : ((2132904783522667 / 2 ^ 59 : ℚ) * ((5 : ℕ) : ℚ)) = 10664523917613335 / 2 ^ 59 := by
    norm_num
  rw [hA, fl_1000_prem_5_total]
  have hQ : ((2132904783522667 / 2 ^ 59 : ℚ) / (1333065489701667 / 2 ^ 56)) = 2132904783522667 / 10664523917613336 := by
    norm_num
  rw [hQ, fl_1000_prem_5_quot]
  have hP : (((1000 : ℕ) : ℚ) * (7205759403792793 / 2 ^ 55)) = 900719925474099125 / 2 ^ 52 := by
    norm_num
  rw [hP, fl_1000_prem_5_prod]
  rw [pyInt_of_nonneg _ (by norm_num)]
  rw [show ⌊(7036874417766399 / 2 ^ 45 : ℚ)⌋ = 199 from by rw [Int.floor_eq_iff] <;> norm_num]
  norm_num

theorem fl_1000_std_10_total : fl (36893488147419105 / 2 ^ 60 : ℚ) = 1152921504606847 / 2 ^ 55 := by
  have hx : (36893488147419105 / 2 ^ 60 : ℚ) / 2 ^ ((-5 : ℤ) - 52) = 36893488147419105 / 2 ^ 3 := by
    norm_num
  have hm : roundHalfEven ((36893488147419105 / 2 ^ 60 : ℚ) / 2 ^ ((-5 : ℤ) - 52)) = 4611686018427388 := by
    rw [hx]
    exact roundHalfEven_eq_of_lt _ 4611686018427388 (by norm_num) (by norm_num)
  have h := fl_eval (36893488147419105 / 2 ^ 60 : ℚ) (-5) 4611686018427388 (by norm_num) (by norm_num) (by norm_num) hm
  rw [h]
  norm_num

theorem fl_1000_std_10_quot : fl (7378697629483821 / 73786976294838208 : ℚ) = 3602879701896397 / 2 ^ 55 := by
  have hx : (7378697629483821 / 73786976294838208 : ℚ) / 2 ^ ((-4 : ℤ) - 52) = 8307674973655724603767001186304 / 1152921504606847 := by
    norm_num
  have hm : roundHalfEven ((7378697629483821 / 73786976294838208 : ℚ) / 2 ^ ((-4 : ℤ) - 52)) = (7205759403792793 + 1) := by
    rw [hx]
    exact roundHalfEven_eq_of_gt _ 7205759403792793 (by norm_num) (by norm_num)
  have h := fl_eval (7378697629483821 / 73786976294838208 : ℚ) (-4) (7205759403792793 + 1) (by norm_num) (by norm_num) (by norm_num) hm
  rw [h]
  norm_num

theorem fl_1000_std_10_prod : fl (450359962737049625 / 2 ^ 52 : ℚ) = 100 := by
  have hx : (450359962737049625 / 2 ^ 52 : ℚ) / 2 ^ ((6 : ℤ) - 52) = 450359962737049625 / 2 ^ 6 := by
    norm_num
  have hm : roundHalfEven ((450359962737049625 / 2 ^ 52 : ℚ) / 2 ^ ((6 : ℤ) - 52)) = 7036874417766400 := by
    rw [hx]
    exact roundHalfEven_eq_of_lt _ 7036874417766400 (by norm_num) (by norm_num)
  have h := fl_eval (450359962737049625 / 2 ^ 52 : ℚ) 6 7036874417766400 (by norm_num) (by norm_num) (by norm_num) hm
  rw [h]
  norm_num

theorem sliceWidth_1000_std_10 :
    singleLeafThicknessPixels 1000 (7378697629483821 / 2 ^ 61 : ℚ) 10 = 100 := by
  unfold singleLeafThicknessPixels
  have hA : ((7378697629483821 / 2 ^ 61 : ℚ) * ((10 : ℕ) : ℚ)) = 36893488147419105 / 2 ^ 60 := by
    norm_num
  rw [hA, fl_1000_std_10_total]
  have hQ : ((7378697629483821 / 2 ^ 61 : ℚ) / (1152921504606847 / 2 ^ 55)) = 7378697629483821 / 73786976294838208 := by
    norm_num
  rw [hQ, fl_1000_std_10_quot]
  have hP : (((1000 : ℕ) : ℚ) * (3602879701896397 / 2 ^ 55)) = 450359962737049625 / 2 ^ 52 := by
    norm_num
  rw [hP, fl_1000_std_10_prod]
  rw [pyInt_of_nonneg _ (by norm_num)]
  rw [show ⌊(100 : ℚ)⌋ = 100 from by rw [Int.floor_eq_iff] <;> norm_num]
  norm_num

theorem fl_100_std_1_total : fl (7378697629483821 / 2 ^ 61 : ℚ) = 7378697629483821 / 2 ^ 61 := by
  have hx : (7378697629483821 / 2 ^ 61 : ℚ) / 2 ^ ((-9 : ℤ) - 52) = 7378697629483821 := by
    norm_num
  have hm : roundHalfEven ((7378697629483821 / 2 ^ 61 : ℚ) / 2 ^ ((-9 : ℤ) - 52)) = 7378697629483821 := by
    rw [hx]
    exact roundHalfEven_eq_of_lt _ 7378697629483821 (by norm_num) (by norm_num)
  have h := fl_eval (7378697629483821 / 2 ^ 61 : ℚ) (-9) 7378697629483821 (by norm_num) (by norm_num) (by norm_num) hm
  rw [h]
  norm_num

theorem fl_100_std_1_quot : fl (1 : ℚ) = 1 := by
  have hx : (1 : ℚ) / 2 ^ ((0 : ℤ) - 52) = 4503599627370496 := by
    norm_num
  have hm : roundHalfEven ((1 : ℚ) / 2 ^ ((0 : ℤ) - 52)) = 4503599627370496 := by
    rw [hx]
    exact roundHalfEven_eq_of_lt _ 4503599627370496 (by norm_num) (by norm_num)
  have h := fl_eval (1 : ℚ) 0 4503599627370496 (by norm_num) (by norm_num) (by norm_num) hm
  rw [h]
  norm_num

theorem fl_100_std_1_prod : fl (100 : ℚ) = 100 := by
  have hx : (100 : ℚ) / 2 ^ ((6 : ℤ) - 52) = 7036874417766400 := by
    norm_num
  have hm : roundHalfEven ((100 : ℚ) / 2 ^ ((6 : ℤ) - 52)) = 7036874417766400 := by
    rw [hx]
    exact roundHalfEven_eq_of_lt _ 7036874417766400 (by norm_num) (by norm_num)
  have h := fl_eval (100 : ℚ) 6 7036874417766400 (by norm_num) (by norm_num) (by norm_num) hm
  rw [h]
  norm_num

theorem sliceWidth_100_std_1 :
    singleLeafThicknessPixels 100 (7378697629483821 / 2 ^ 61 : ℚ) 1 = 100 := by
  unfold singleLeafThicknessPixels
  have hA : ((7378697629483821 / 2 ^ 61 : ℚ) * ((1 : ℕ) : ℚ)) = 7378697629483821 / 2 ^ 61 := by
    norm_num
  rw [hA, fl_100_std_1_total]
  have hQ : ((7378697629483821 / 2 ^ 61 : ℚ) / (7378697629483821 / 2 ^ 61)) = 1 := by
    norm_num
  rw [hQ, fl_100_std_1_quot]
  have hP : (((100 : ℕ) : ℚ) * (1)) = 100 := by
    norm_num
  rw [hP, fl_100_std_1_prod]
  rw [pyInt_of_nonneg _ (by norm_num)]
  rw [show ⌊(100 : ℚ)⌋ = 100 from by rw [Int.floor_eq_iff] <;> norm_num]
  norm_num

theorem fl_100_prem_1_total : fl (2132904783522667 / 2 ^ 59 : ℚ) = 2132904783522667 / 2 ^ 59 := by
  have hx : (2132904783522667 / 2 ^ 59 : ℚ) / 2 ^ ((-9 : ℤ) - 52) = 8531619134090668 := by
    norm_num
  have hm : roundHalfEven ((2132904783522667 / 2 ^ 59 : ℚ) / 2 ^ ((-9 : ℤ) - 52)) = 8531619134090668 := by
    rw [hx]
    exact roundHalfEven_eq_of_lt _ 8531619134090668 (by norm_num) (by norm_num)
  have h := fl_eval (2132904783522667 / 2 ^ 59 : ℚ) (-9) 8531619134090668 (by norm_num) (by norm_num) (by norm_num) hm
  rw [h]
  norm_num

theorem fl_100_prem_1_quot : fl (1 : ℚ) = 1 := by
  have hx : (1 : ℚ) / 2 ^ ((0 : ℤ) - 52) = 4503599627370496 := by
    norm_num
  have hm : roundHalfEven ((1 : ℚ) / 2 ^ ((0 : ℤ) - 52)) = 4503599627370496 := by
    rw [hx]
    exact roundHalfEven_eq_of_lt _ 4503599627370496 (by norm_num) (by norm_num)
  have h := fl_eval (1 : ℚ) 0 4503599627370496 (by norm_num) (by norm_num) (by norm_num) hm
  rw [h]
  norm_num

theorem fl_100_prem_1_prod : fl (100 : ℚ) = 100 := by
  have hx : (100 : ℚ) / 2 ^ ((6 : ℤ) - 52) = 7036874417766400 := by
    norm_num
  have hm : roundHalfEven ((100 : ℚ) / 2 ^ ((6 : ℤ) - 52)) = 7036874417766400 := by
    rw [hx]
    exact roundHalfEven_eq_of_lt _ 7036874417766400 (by norm_num) (by norm_num)
  have h := fl_eval (100 : ℚ) 6 7036874417766400 (by norm_num) (by norm_num) (by norm_num) hm
  rw [h]
  norm_num

theorem sliceWidth_100_prem_1 :
    singleLeafThicknessPixels 100 (2132904783522667 / 2 ^ 59 : ℚ) 1 = 100 := by
  unfold singleLeafThicknessPixels
  have hA : ((2132904783522667 / 2 ^ 59 : ℚ) * ((1 : ℕ) : ℚ)) = 2132904783522667 / 2 ^ 59 := by
    norm_num
  rw [hA, fl_100_prem_1_total]
  have hQ : ((2132904783522667 / 2 ^ 59 : ℚ) / (2132904783522667 / 2 ^ 59)) = 1 := by
    norm_num
  rw [hQ, fl_100_prem_1_quot]
  have hP : (((100 : ℕ) : ℚ) * (1)) = 100 := by
    norm_num
  rw [hP, fl_100_prem_1_prod]
  rw [pyInt_of_nonneg _ (by norm_num)]
  rw [show ⌊(100 : ℚ)⌋ = 100 from by rw [Int.floor_eq_iff] <;> norm_num]
  norm_num

set_option maxHeartbeats 1000000 in
theorem sliceWidth_near_floor (Ew : ℕ) (t : ℚ) (L : ℕ) (ht : 0 < t) (hL : 1 ≤ L)
    (hEw : (Ew : ℚ) ≤ 2 ^ 40) :
    |singleLeafThicknessPixels Ew t L - max 1 ⌊(Ew : ℚ) / (L : ℚ)⌋| ≤ 1 := by
  have hLq : (1 : ℚ) ≤ (L : ℚ) := by exact_mod_cast hL
  have hL0 : (0 : ℚ) < (L : ℚ) := lt_of_lt_of_le one_pos hLq
  unfold singleLeafThicknessPixels
  rcases Nat.eq_zero_or_pos Ew with hEw0 | hEwpos
  · subst hEw0
    rw [Nat.cast_zero, zero_mul, fl_zero, zero_div]
    rw [pyInt_of_nonneg 0 le_rfl, Int.floor_zero]
    norm_num
  · have hEw1 : (1 : ℚ) ≤ (Ew : ℚ) := by exact_mod_cast hEwpos
    have hEw0q : (0 : ℚ) < (Ew : ℚ) := lt_of_lt_of_le one_pos hEw1
    set u : ℚ := 1 / 2 ^ 53 with hu_def
    have hu : (0 : ℚ) < u := by norm_num [hu_def]
    have h1u : (0 : ℚ) ≤ 1 - u := by norm_num [hu_def]
    have h1u2 : (0 : ℚ) < 1 + u := by norm_num [hu_def]
    -- step A := fl (t * L)
    have htL : (0 : ℚ) < t * (L : ℚ) := mul_pos ht hL0
    set A := fl (t * (L : ℚ)) with hA_def
    have hAerr : |A - t * (L : ℚ)| ≤ t * (L : ℚ) * u := by
      have h := fl_err (t * (L : ℚ)) htL
      calc |A - t * (L : ℚ)| ≤ t * (L : ℚ) / 2 ^ 53 := h
        _ = t * (L : ℚ) * u := by rw [hu_def]; ring
    have hApos : (0 : ℚ) < A := fl_pos _ htL
    clear_value A
    have hA1 : t * (L : ℚ) * (1 - u) ≤ A := by
      have h := (abs_le.mp hAerr).1
      linarith [h]
    have hA2 : A ≤ t * (L : ℚ) * (1 + u) := by
      have h := (abs_le.mp hAerr).2
      linarith [h]
    -- step Q := t / A
    set Q := t / A with hQ_def
    have hQpos : (0 : ℚ) < Q := div_pos ht hApos
    have hQA : Q * A = t := div_mul_cancel₀ t (ne_of_gt hApos)
    clear_value Q
    have hq2 : 1 ≤ Q * ((L : ℚ) * (1 + u)) := by
      have h1 : t ≤ Q * (t * (L : ℚ) * (1 + u)) := by
        calc t = Q * A := hQA.symm
          _ ≤ Q * (t * (L : ℚ) * (1 + u)) := mul_le_mul_of_nonneg_left hA2 hQpos.le
      have h2 : Q * (t * (L : ℚ) * (1 + u)) = t * (Q * ((L : ℚ) * (1 + u))) := by ring
      rw [h2] at h1
      nlinarith
    have hq1 : Q * ((L : ℚ) * (1 - u)) ≤ 1 := by
      have h1 : Q * (t * (L : ℚ) * (1 - u)) ≤ t := by
        calc Q * (t * (L : ℚ) * (1 - u)) ≤ Q * A := mul_le_mul_of_nonneg_left hA1 hQpos.le
          _ = t := hQA
      have h2 : Q * (t * (L : ℚ) * (1 - u)) = t * (Q * ((L : ℚ) * (1 - u))) := by ring
      rw [h2] at h1
      nlinarith
    -- step R := fl Q
    set R := fl Q with hR_def
    have hRerr : |R - Q| ≤ Q * u := by
      have h := fl_err Q hQpos
      calc |R - Q| ≤ Q / 2 ^ 53 := h
        _ = Q * u := by rw [hu_def]; ring
    have hRpos : (0 : ℚ) < R := fl_pos _ hQpos
    clear_value R
    have hR1 : Q * (1 - u) ≤ R := by
      have h := (abs_le.mp hRerr).1
      linarith [h]
    have hR2 : R ≤ Q * (1 + u) := by
      have h := (abs_le.mp hRerr).2
      linarith [h]
    -- bounds on R * L
    have hRL1 : 1 - 2 * u ≤ R * (L : ℚ) := by
      have ha1 : Q * (1 - u) * ((L : ℚ) * (1 + u)) ≤ R * ((L : ℚ) * (1 + u)) := by
        apply mul_le_mul_of_nonneg_right hR1
        positivity
      have ha2 : Q * (1 - u) * ((L : ℚ) * (1 + u)) = (1 - u) * (Q * ((L : ℚ) * (1 + u))) := by
        ring
      have ha3 : (1 - u) * 1 ≤ (1 - u) * (Q * ((L : ℚ) * (1 + u))) :=
        mul_le_mul_of_nonneg_left hq2 h1u
      have hb1 : (1 - u) * 1 ≤ (R * (L : ℚ)) * (1 + u) := by
        rw [ha2] at ha1
        have he : R * ((L : ℚ) * (1 + u)) = (R * (L : ℚ)) * (1 + u) := by ring
        rw [he] at ha1
        linarith
      have hc : (1 - 2 * u) * (1 + u) ≤ (1 - u) * 1 := by norm_num [hu_def]
      exact le_of_mul_le_mul_right (by linarith) h1u2
    have hRL2 : R * (L : ℚ) ≤ 1 + 3 * u := by
      have ha1 : R * ((L : ℚ) * (1 - u)) ≤ Q * (1 + u) * ((L : ℚ) * (1 - u)) := by
        apply mul_le_mul_of_nonneg_right hR2
        positivity
      have ha2 : Q * (1 + u) * ((L : ℚ) * (1 - u)) = (1 + u) * (Q * ((L : ℚ) * (1 - u))) := by
        ring
      have ha3 : (1 + u) * (Q * ((L : ℚ) * (1 - u))) ≤ (1 + u) * 1 :=
        mul_le_mul_of_nonneg_left hq1 h1u2.le
      have hb1 : (R * (L : ℚ)) * (1 - u) ≤ (1 + u) * 1 := by
        rw [ha2] at ha1
        have he : R * ((L : ℚ) * (1 - u)) = (R * (L : ℚ)) * (1 - u) := by ring
        rw [he] at ha1
        linarith
      have hc : (1 + u) * 1 ≤ (1 + 3 * u) * (1 - u) := by norm_num [hu_def]
      have h1um : (0 : ℚ) < 1 - u := by norm_num [hu_def]
      exact le_of_mul_le_mul_right (by linarith) h1um
    -- step P := fl (Ew * R)
    have hEwR : (0 : ℚ) < (Ew : ℚ) * R := mul_pos hEw0q hRpos
    set P := fl ((Ew : ℚ) * R) with hP_def
    have hPerr : |P - (Ew : ℚ) * R| ≤ (Ew : ℚ) * R * u := by
      have h := fl_err ((Ew : ℚ) * R) hEwR
      calc |P - (Ew : ℚ) * R| ≤ (Ew : ℚ) * R / 2 ^ 53 := h
        _ = (Ew : ℚ) * R * u := by rw [hu_def]; ring
    have hPpos : (0 : ℚ) < P := fl_pos _ hEwR
    clear_value P
    have hP1 : (Ew : ℚ) * R * (1 - u) ≤ P := by
      have h := (abs_le.mp hPerr).1
      linarith [h]
    have hP2 : P ≤ (Ew : ℚ) * R * (1 + u) := by
      have h := (abs_le.mp hPerr).2
      linarith [h]
    -- bounds on P * L
    have hPL1 : (Ew : ℚ) * (1 - 3 * u) ≤ P * (L : ℚ) := by
      have ha1 : (Ew : ℚ) * R * (1 - u) * (L : ℚ) ≤ P * (L : ℚ) :=
        mul_le_mul_of_nonneg_right hP1 hL0.le
      have ha2 : (Ew : ℚ) * (1 - 2 * u) * (1 - u) ≤ (Ew : ℚ) * (R * (L : ℚ)) * (1 - u) := by
        have hnn : (0 : ℚ) ≤ (Ew : ℚ) * (1 - u) := mul_nonneg hEw0q.le h1u
        nlinarith [mul_le_mul_of_nonneg_left hRL1 hnn]
      have ha3 : (Ew : ℚ) * R * (1 - u) * (L : ℚ) = (Ew : ℚ) * (R * (L : ℚ)) * (1 - u) := by
        ring
      have ha4 : (Ew : ℚ) * (1 - 3 * u) ≤ (Ew : ℚ) * (1 - 2 * u) * (1 - u) := by
        nlinarith [mul_nonneg hEw0q.le (mul_nonneg hu.le hu.le)]
      rw [ha3] at ha1
      linarith
    have hPL2 : P * (L : ℚ) ≤ (Ew : ℚ) * (1 + 5 * u) := by
      have ha1 : P * (L : ℚ) ≤ (Ew : ℚ) * R * (1 + u) * (L : ℚ) :=
        mul_le_mul_of_nonneg_right hP2 hL0.le
      have ha2 : (Ew : ℚ) * (R * (L : ℚ)) * (1 + u) ≤ (Ew : ℚ) * (1 + 3 * u) * (1 + u) := by
        have hnn : (0 : ℚ) ≤ (Ew : ℚ) * (1 + u) := mul_nonneg hEw0q.le h1u2.le
        nlinarith [mul_le_mul_of_nonneg_left hRL2 hnn]
      have ha3 : (Ew : ℚ) * R * (1 + u) * (L : ℚ) = (Ew : ℚ) * (R * (L : ℚ)) * (1 + u) := by
        ring
      have ha4 : (Ew : ℚ) * (1 + 3 * u) * (1 + u) ≤ (Ew : ℚ) * (1 + 5 * u) := by
        have hc : (1 + 3 * u) * (1 + u) ≤ 1 + 5 * u := by norm_num [hu_def]
        nlinarith [hEw0q.le]
      rw [ha3] at ha1
      linarith
    -- error budgets
    have h3uEw : 3 * u * (Ew : ℚ) ≤ 1 := by
      have hb : 3 * u * (Ew : ℚ) ≤ 3 * u * 2 ^ 40 :=
        mul_le_mul_of_nonneg_left hEw (by positivity)
      have hnum : (3 : ℚ) * u * 2 ^ 40 ≤ 1 := by rw [hu_def]; norm_num
      linarith
    have h5uEw : 5 * u * (Ew : ℚ) ≤ 1 := by
      have hb : 5 * u * (Ew : ℚ) ≤ 5 * u * 2 ^ 40 :=
        mul_le_mul_of_nonneg_left hEw (by positivity)
      have hnum : (5 : ℚ) * u * 2 ^ 40 ≤ 1 := by rw [hu_def]; norm_num
      linarith
    -- F − 1 ≤ P ≤ F + 1 with F := Ew / L
    have hFlow : (Ew : ℚ) / (L : ℚ) - 1 ≤ P := by
      rw [sub_le_iff_le_add, div_le_iff₀ hL0]
      nlinarith
    have hFhigh : P ≤ (Ew : ℚ) / (L : ℚ) + 1 := by
      have key : P * (L : ℚ) ≤ (Ew : ℚ) + (L : ℚ) := by nlinarith
      have hP' : P = P * (L : ℚ) / (L : ℚ) := by field_simp
      rw [hP']
      calc P * (L : ℚ) / (L : ℚ) ≤ ((Ew : ℚ) + (L : ℚ)) / (L : ℚ) := by gcongr
        _ = (Ew : ℚ) / (L : ℚ) + 1 := by field_simp
    -- floors
    have hfl1 : ⌊(Ew : ℚ) / (L : ℚ)⌋ - 1 ≤ ⌊P⌋ := by
      have h := Int.floor_le_floor hFlow
      rwa [show (Ew : ℚ) / (L : ℚ) - 1 = (Ew : ℚ) / (L : ℚ) - ((1 : ℤ) : ℚ) from by norm_num,
        Int.floor_sub_int] at h
    have hfl2 : ⌊P⌋ ≤ ⌊(Ew : ℚ) / (L : ℚ)⌋ + 1 := by
      have h := Int.floor_le_floor hFhigh
      rwa [show (Ew : ℚ) / (L : ℚ) + 1 = (Ew : ℚ) / (L : ℚ) + ((1 : ℤ) : ℚ) from by norm_num,
        Int.floor_add_int] at h
    -- assemble
    rw [pyInt_of_nonneg P hPpos.le]
    have habs : |⌊P⌋ - ⌊(Ew : ℚ) / (L : ℚ)⌋| ≤ 1 := by
      rw [abs_le]
      omega
    calc |max 1 ⌊P⌋ - max 1 ⌊(Ew : ℚ) / (L : ℚ)⌋|
        = |max ⌊P⌋ 1 - max ⌊(Ew : ℚ) / (L : ℚ)⌋ 1| := by
          rw [max_comm, max_comm ⌊(Ew : ℚ) / (L : ℚ)⌋]
      _ ≤ |⌊P⌋ - ⌊(Ew : ℚ) / (L : ℚ)⌋| := abs_max_sub_max_le_abs _ _ _
      _ ≤ 1 := habs

/-- With a single leaf the whole 100px artwork is one slice, for either stored
thickness value (hence for every page-type string). -/
theorem sliceWidth_any_type_one_leaf (s : String) :
    singleLeafThicknessPixels 100 (pageThicknessLookup s) 1 = 100 := by
  rcases pageThicknessLookup_cases s with h | h
  · rw [h]
    exact sliceWidth_100_std_1
  · rw [h]
    exact sliceWidth_100_prem_1

/-- Claim C2 (counterexample): the slice width computed by the code is NOT
`max(1, round(Ew * (t / (t*L))))`: at `Ew = 1000`, `t = 0.0032` (the standard
thickness, positive), `L = 7 ≥ 1` the code's `int()` truncation of the
double-evaluated expression yields `142` while rounding the claimed expression
to the nearest integer yields `143`. -/
theorem claim_C2_counterexample :
    singleLeafThicknessPixels 1000 (pageThicknessLookup "standard") 7 ≠
      max 1 (round (((1000 : ℕ) : ℚ) * (pageThicknessLookup "standard" /
        (pageThicknessLookup "standard" * ((7 : ℕ) : ℚ))))) := by
  rw [pageThicknessLookup_standard, sliceWidth_1000_std_7]
  have h : (((1000 : ℕ) : ℚ) * ((7378697629483821 / 2 ^ 61) /
      ((7378697629483821 / 2 ^ 61) * ((7 : ℕ) : ℚ)))) = 1000 / 7 := by
    push_cast
    norm_num
  rw [h, round_eq]
  have hf : ⌊(1000 / 7 : ℚ) + 1 / 2⌋ = 143 := by
    rw [Int.floor_eq_iff] <;> norm_num
  rw [hf]
  norm_num

/-- Claim C2 (amended): the slice width is `max(1, int(v))` where `v` is the
binary64 evaluation of `Ew * (t / (t * L))` and `int()` truncates toward zero —
not rounded to nearest.  For every thickness `t > 0`, leaf count `L ≥ 1` and
artwork width `Ew ≤ 2^40` this lies within one pixel of the exact proportional
share `max(1, ⌊Ew / L⌋)`; it can fall one pixel short of it: at `Ew = 1300`,
`t = 0.0032`, `L = 13` the code computes `99` while `⌊1300/13⌋ = 100`. -/
theorem claim_C2_amended :
    (∀ (Ew : ℕ) (t : ℚ) (L : ℕ), 0 < t → 1 ≤ L → (Ew : ℚ) ≤ 2 ^ 40 →
      |singleLeafThicknessPixels Ew t L - max 1 ⌊(Ew : ℚ) / (L : ℚ)⌋| ≤ 1)
    ∧ singleLeafThicknessPixels 1300 (pageThicknessLookup "standard") 13 = 99
    ∧ max 1 ⌊((1300 : ℕ) : ℚ) / ((13 : ℕ) : ℚ)⌋ = 100 := by
  refine ⟨sliceWidth_near_floor, ?_, ?_⟩
  · rw [pageThicknessLookup_standard]
    exact sliceWidth_1300_std_13
  · rw [floor_div_nat_eq 1300 13 100 0 (by norm_num) (by norm_num) (by norm_num)]
    norm_num

theorem claim_C2_amended_witness :
    ((0 : ℚ) < pageThicknessLookup "standard" ∧ 1 ≤ 13
      ∧ ((1300 : ℕ) : ℚ) ≤ 2 ^ 40)
    ∧ |singleLeafThicknessPixels 1300 (pageThicknessLookup "standard") 13 -
        max 1 ⌊((1300 : ℕ) : ℚ) / ((13 : ℕ) : ℚ)⌋| ≤ 1 :=
  ⟨⟨pageThicknessLookup_pos "standard", by norm_num, by norm_num⟩,
    claim_C2_amended.1 1300 (pageThicknessLookup "standard") 13
      (pageThicknessLookup_pos "standard") (by norm_num) (by norm_num)⟩

/-- Claim C3: with the AddBleed policy and bleed `B = 0.125in = 9pt`, the canvas
of a `W × H`-point page is `(W + B) × (H + 2B)`; a recto (even-index) page's
content rectangle is `(0, B, W, B + H)` and a verso (odd-index) page's is
`(B, B, B + W, B + H)`.  For a 6in × 9in trim the canvas height is 9.25in, the
recto content rect is `(0, 0.125, 6, 9.125)`in and the verso content rect is
`(0.125, 0.125, 6.125, 9.125)`in. -/
theorem claim_C3 (W H : ℚ) :
    newWidth .add_bleed W = W + 9
    ∧ newHeight .add_bleed H = H + 2 * 9
    ∧ contentRect .add_bleed W H 0 = ⟨0, 9, W, 9 + H⟩
    ∧ contentRect .add_bleed W H 1 = ⟨9, 9, 9 + W, 9 + H⟩
    ∧ newHeight .add_bleed ((9 : ℚ) * 72) = (925 / 100) * 72
    ∧ contentRect .add_bleed (6 * 72) (9 * 72) 0 =
        ⟨0, (125 / 1000) * 72, 6 * 72, (9125 / 1000) * 72⟩
    ∧ contentRect .add_bleed (6 * 72) (9 * 72) 1 =
        ⟨(125 / 1000) * 72, (125 / 1000) * 72, (6125 / 1000) * 72, (9125 / 1000) * 72⟩ := by
  refine ⟨?_, ?_, ?_, ?_, ?_, ?_, ?_⟩ <;>
    · simp only [newWidth, newHeight, contentRect, BLEED_INCHES, POINTS_PER_INCH]
      norm_num [Rect.mk.injEq]

/-- Claim C6: for every leaf count `L` and artwork width `Ew`, with a uniform
per-leaf thickness `t`, the slice width `w` of the leaf slice mapper satisfies
`w ≥ 1`, and the windows `[l*w, (l+1)*w)` for `l < L` are contiguous,
non-overlapping, equal width, and partition `[0, w*L)`.  Concretely, a 20-page
document gives `L = 10` leaves and, with a 1000px-wide artwork of standard
thickness, `w = 100` (under the binary64 evaluation the source performs) with
windows `[100*l, 100*(l+1))`. -/
theorem claim_C6 (Ew L : ℕ) (t : ℚ) :
    1 ≤ singleLeafThicknessPixels Ew t L
    ∧ (∀ l : ℕ, sliceXEnd l (singleLeafThicknessPixels Ew t L) =
        sliceXStart (l + 1) (singleLeafThicknessPixels Ew t L))
    ∧ (∀ l1 l2 : ℕ, l1 < L → l2 < L → l1 ≠ l2 → ∀ x : ℤ,
        sliceXStart l1 (singleLeafThicknessPixels Ew t L) ≤ x →
        x < sliceXEnd l1 (singleLeafThicknessPixels Ew t L) →
        ¬(sliceXStart l2 (singleLeafThicknessPixels Ew t L) ≤ x ∧
          x < sliceXEnd l2 (singleLeafThicknessPixels Ew t L)))
    ∧ (∀ x : ℤ, (0 ≤ x ∧ x < singleLeafThicknessPixels Ew t L * (L : ℤ)) ↔
        ∃ l : ℕ, l < L ∧ sliceXStart l (singleLeafThicknessPixels Ew t L) ≤ x ∧
          x < sliceXEnd l (singleLeafThicknessPixels Ew t L))
    ∧ ((20 + 1) / 2 = 10
        ∧ singleLeafThicknessPixels 1000 (pageThicknessLookup "standard") 10 = 100
        ∧ ∀ l : ℕ,
            sliceXStart l (singleLeafThicknessPixels 1000 (pageThicknessLookup "standard") 10) =
              100 * l
            ∧ sliceXEnd l (singleLeafThicknessPixels 1000 (pageThicknessLookup "standard") 10) =
              100 * l + 100) := by
  have hconc : singleLeafThicknessPixels 1000 (pageThicknessLookup "standard") 10 = 100 := by
    rw [pageThicknessLookup_standard]
    exact sliceWidth_1000_std_10
  refine ⟨sliceWidth_ge_one Ew t L, fun l => sliceWindows_contiguous _ l,
    fun l1 l2 _ _ hne x h1 h2 => sliceWindows_disjoint _ (sliceWidth_ge_one Ew t L) l1 l2 hne x h1 h2,
    fun x => sliceWindows_cover _ (sliceWidth_ge_one Ew t L) L x,
    by norm_num, hconc, fun l => ?_⟩
  rw [hconc]
  constructor
  · simp only [sliceXStart]
    ring
  · simp only [sliceXEnd, sliceXStart]
    ring

/-- Claim C9 (counterexample): the slice width depends on the page type and is
not `max(1, int(Ew / L))`: with a 1000px artwork and `L = 5` leaves, premium
paper gives 199 while standard gives 200 = `max(1, ⌊1000/5⌋)` — in binary64
arithmetic `t / (t * L)` does not cancel to `1 / L`. -/
theorem claim_C9_counterexample :
    singleLeafThicknessPixels 1000 (pageThicknessLookup "premium") 5 ≠
      singleLeafThicknessPixels 1000 (pageThicknessLookup "standard") 5
    ∧ singleLeafThicknessPixels 1000 (pageThicknessLookup "premium") 5 ≠
      max 1 ⌊((1000 : ℕ) : ℚ) / ((5 : ℕ) : ℚ)⌋ := by
  rw [pageThicknessLookup_standard, pageThicknessLookup_premium,
    sliceWidth_1000_prem_5, sliceWidth_1000_std_5,
    floor_div_nat_eq 1000 5 200 0 (by norm_num) (by norm_num) (by norm_num)]
  norm_num

/-- Claim C9 (amended): page-type strings absent from the thickness table fall
back to the default `0.0032` without error, giving exactly the slice width of
`"standard"`/`"bw"`; but the slice width is NOT independent of the page type
(premium's thickness shifts it by a pixel), and instead of equalling
`max(1, int(Ew / L))` it lies within one pixel of it, for every page-type
string, `L ≥ 1` and `Ew ≤ 2^40`. -/
theorem claim_C9_amended :
    (∀ s : String, s ≠ "bw" → s ≠ "standard" → s ≠ "premium" →
      pageThicknessLookup s = pageThicknessLookup "standard")
    ∧ (∀ (Ew L : ℕ) (pageType : String), 1 ≤ L → (Ew : ℚ) ≤ 2 ^ 40 →
      |singleLeafThicknessPixels Ew (pageThicknessLookup pageType.toLower) L -
        max 1 ⌊(Ew : ℚ) / (L : ℚ)⌋| ≤ 1) := by
  constructor
  · exact pageThicknessLookup_default
  · intro Ew L pageType hL hEw
    exact sliceWidth_near_floor Ew _ L (pageThicknessLookup_pos _) hL hEw

theorem claim_C9_amended_witness :
    (("glossy" : String) ≠ "bw" ∧ ("glossy" : String) ≠ "standard"
      ∧ ("glossy" : String) ≠ "premium"
      ∧ pageThicknessLookup "glossy" = pageThicknessLookup "standard")
    ∧ (1 ≤ 10 ∧ ((1000 : ℕ) : ℚ) ≤ 2 ^ 40
      ∧ |singleLeafThicknessPixels 1000 (pageThicknessLookup (String.toLower "Glossy")) 10 -
          max 1 ⌊((1000 : ℕ) : ℚ) / ((10 : ℕ) : ℚ)⌋| ≤ 1) :=
  ⟨⟨by decide, by decide, by decide,
      claim_C9_amended.1 "glossy" (by decide) (by decide) (by decide)⟩,
    ⟨by norm_num, by norm_num,
      claim_C9_amended.2 1000 10 "Glossy" (by norm_num) (by norm_num)⟩⟩

/-- `edge_strip_width = BLEED_POINTS + SAFETY_BUFFER_POINTS` (app.py lines 138,
416, 446, 486, 532): the fixed strip thickness `S = 18` points = 0.25 inch. -/
def edgeStripPoints : ℚ := BLEED_POINTS + SAFETY_BUFFER_POINTS

/-- `top_rect = fitz.Rect(0, 0, new_width, edge_strip_height)` (app.py line 472). -/
def topStripRect (nW : ℚ) : Rect := ⟨0, 0, nW, edgeStripPoints⟩

/-- `bottom_rect = fitz.Rect(0, bottom_y, new_width, new_height)` with
`bottom_y = new_height - edge_strip_height` (app.py lines 512-513). -/
def bottomStripRect (nW nH : ℚ) : Rect := ⟨0, nH - edgeStripPoints, nW, nH⟩

/-- `side_rect = fitz.Rect(side_x, 0, new_width, new_height)` with
`side_x = new_width - side_strip_width`, on recto pages (app.py lines 536-537). -/
def sideStripRectRecto (nW nH : ℚ) : Rect := ⟨nW - edgeStripPoints, 0, nW, nH⟩

/-- `side_rect = fitz.Rect(0, 0, side_strip_width, new_height)`, on verso pages
(app.py line 543). -/
def sideStripRectVerso (nH : ℚ) : Rect := ⟨0, 0, edgeStripPoints, nH⟩

/-- Two rectangles overlap when their interiors intersect. -/
def Rect.overlaps (r s : Rect) : Prop :=
  max r.x0 s.x0 < min r.x1 s.x1 ∧ max r.y0 s.y0 < min r.y1 s.y1

instance (r s : Rect) : Decidable (Rect.overlaps r s) := by
  unfold Rect.overlaps
  infer_instance

/-- Claim C7 (counterexample): on the canvas of a 6in × 9in page with added
bleed (441 × 666 points), the top strip rectangle and the recto side strip
rectangle DO overlap: the side strip spans the full canvas height (app.py line
537), so it meets the top strip in an 18 × 18 point corner. -/
theorem claim_C7_counterexample :
    Rect.overlaps (topStripRect (newWidth .add_bleed (6 * 72)))
      (sideStripRectRecto (newWidth .add_bleed (6 * 72)) (newHeight .add_bleed (9 * 72))) := by
  simp only [Rect.overlaps, topStripRect, sideStripRectRecto, newWidth, newHeight,
    edgeStripPoints, BLEED_POINTS, SAFETY_BUFFER_POINTS, BLEED_INCHES,
    SAFETY_BUFFER_INCHES, POINTS_PER_INCH]
  norm_num

/-- Claim C7 (amended): the top strip `[0,canvasW) × [0,S)` and the bottom strip
`[0,canvasW) × [canvasH-S,canvasH)` never overlap each other (whenever
`canvasH ≥ 2S`), but the side strip placed by the code spans the FULL canvas
height (`[canvasW-S,canvasW) × [0,canvasH)`, not only the trim region), so it
overlaps both the top and the bottom strip in an `S × S` corner whenever
`S ≤ canvasW` and `2S ≤ canvasH`. -/
theorem claim_C7_amended (nW nH : ℚ) (hW : edgeStripPoints ≤ nW) (hH : 2 * edgeStripPoints ≤ nH) :
    ¬ Rect.overlaps (topStripRect nW) (bottomStripRect nW nH)
    ∧ Rect.overlaps (topStripRect nW) (sideStripRectRecto nW nH)
    ∧ Rect.overlaps (bottomStripRect nW nH) (sideStripRectRecto nW nH) := by
  have hS : edgeStripPoints = 18 := by
    norm_num [edgeStripPoints, BLEED_POINTS, SAFETY_BUFFER_POINTS, BLEED_INCHES,
      SAFETY_BUFFER_INCHES, POINTS_PER_INCH]
  rw [hS] at hW hH
  refine ⟨?_, ?_, ?_⟩
  · simp only [Rect.overlaps, topStripRect, bottomStripRect, sideStripRectRecto, hS,
      max_lt_iff, lt_min_iff, not_and, not_lt]
    intro _ _
    linarith
  · simp only [Rect.overlaps, topStripRect, bottomStripRect, sideStripRectRecto, hS,
      max_lt_iff, lt_min_iff]
    refine ⟨⟨⟨?_, ?_⟩, ?_, ?_⟩, ⟨?_, ?_⟩, ?_, ?_⟩ <;> linarith
  · simp only [Rect.overlaps, topStripRect, bottomStripRect, sideStripRectRecto, hS,
      max_lt_iff, lt_min_iff]
    refine ⟨⟨⟨?_, ?_⟩, ?_, ?_⟩, ⟨?_, ?_⟩, ?_, ?_⟩ <;> linarith

theorem claim_C7_amended_witness :
    edgeStripPoints ≤ newWidth .add_bleed (6 * 72)
    ∧ 2 * edgeStripPoints ≤ newHeight .add_bleed (9 * 72)
    ∧ (¬ Rect.overlaps (topStripRect (newWidth .add_bleed (6 * 72)))
          (bottomStripRect (newWidth .add_bleed (6 * 72)) (newHeight .add_bleed (9 * 72)))
        ∧ Rect.overlaps (topStripRect (newWidth .add_bleed (6 * 72)))
          (sideStripRectRecto (newWidth .add_bleed (6 * 72)) (newHeight .add_bleed (9 * 72)))
        ∧ Rect.overlaps (bottomStripRect (newWidth .add_bleed (6 * 72)) (newHeight .add_bleed (9 * 72)))
          (sideStripRectRecto (newWidth .add_bleed (6 * 72)) (newHeight .add_bleed (9 * 72)))) :=
  ⟨by norm_num [edgeStripPoints, BLEED_POINTS, SAFETY_BUFFER_POINTS, BLEED_INCHES,
      SAFETY_BUFFER_INCHES, POINTS_PER_INCH, newWidth],
   by norm_num [edgeStripPoints, BLEED_POINTS, SAFETY_BUFFER_POINTS, BLEED_INCHES,
      SAFETY_BUFFER_INCHES, POINTS_PER_INCH, newHeight],
   claim_C7_amended _ _
     (by norm_num [edgeStripPoints, BLEED_POINTS, SAFETY_BUFFER_POINTS, BLEED_INCHES,
        SAFETY_BUFFER_INCHES, POINTS_PER_INCH, newWidth])
     (by norm_num [edgeStripPoints, BLEED_POINTS, SAFETY_BUFFER_POINTS, BLEED_INCHES,
        SAFETY_BUFFER_INCHES, POINTS_PER_INCH, newHeight])⟩

/-- The artwork rasters supplied to a run, one per edge. -/
inductive EdgeName where
  | side
  | top
  | bottom
deriving DecidableEq

/-- Symbolic PIL images: the supplied artwork for an edge, and the total
operations `Image.crop` (which silently pads boxes beyond the image bounds),
`Image.resize` and `ImageOps.mirror` applied to them. -/
inductive Img where
  | art (e : EdgeName)
  | crop (i : Img) (x0 y0 x1 y1 : ℤ)
  | resize (i : Img) (w h : ℤ)
  | mirror (i : Img)
deriving DecidableEq

/-- The ways a compositing run can fail: a `raise ValueError(msg)` reaching the
surrounding `except` (sequencing), a `ZeroDivisionError` from
`page_thickness_inches / total_thickness_inches` when `num_leaves == 0`, and
the `KeyError` from `edge_files_dict['side']` in side-only mode with no side
file. -/
inductive Err where
  | sequencing (msg : String)
  | zeroDivision
  | keyError
deriving DecidableEq

/-- One output page: the canvas dimensions passed to `new_pdf.new_page`, the
rectangle into which `show_pdf_page` copies the original content, and the
`(rect, image)` pairs passed to `insert_image`, in insertion order. -/
structure PageOut where
  width : ℚ
  height : ℚ
  content : Rect
  strips : List (Rect × Img)
deriving DecidableEq

/-- The inputs of `process_pdf_files` (app.py line 52) that the compositing
loop reads: the opened PDF's page count and first-page dimensions, the side
edge image's pixel dimensions, and the request parameters.  `trim_width`,
`trim_height`, `position` and `mode` are accepted but never used by the body. -/
structure SideCfg where
  numPdfPages : ℕ
  originalWidth : ℚ
  originalHeight : ℚ
  edgeWidth : ℕ
  edgeHeight : ℕ
  numPages : ℕ
  numLeaves : Option ℕ
  pageType : String
  bleedType : BleedType
deriving DecidableEq

/-- `num_leaves = (num_pages + 1) // 2` when not supplied (app.py lines 74-75). -/
def leavesOf (cfg : SideCfg) : ℕ := cfg.numLeaves.getD ((cfg.numPages + 1) / 2)

/-- The body of the `for page_num in range(len(pdf_doc))` loop of
`process_pdf_files` (app.py lines 86-171), acting on the `previous_slice`
cache.  Even page indices are recto pages: the fresh stretched slice is placed
at the right edge and cached.  Odd page indices are verso pages: with no cached
slice the code raises `ValueError("Even page without previous slice!")`,
otherwise it places the mirrored cached slice at the left edge. -/
def sidePageStep (cfg : SideCfg) (pageNum : ℕ) (prev : Option Img) :
    Except Err (Option Img × PageOut) :=
  let t := pageThicknessLookup cfg.pageType.toLower
  let L := leavesOf cfg
  let nW := newWidth cfg.bleedType cfg.originalWidth
  let nH := newHeight cfg.bleedType cfg.originalHeight
  let cRect := contentRect cfg.bleedType cfg.originalWidth cfg.originalHeight pageNum
  if t * (L : ℚ) = 0 then .error .zeroDivision
  else
    let w := singleLeafThicknessPixels cfg.edgeWidth t L
    let leafNumber := pageNum / 2
    let pageSlice := Img.crop (Img.art .side) (sliceXStart leafNumber w) 0
      (sliceXEnd leafNumber w) (cfg.edgeHeight : ℤ)
    let resized := Img.resize pageSlice w (pyInt nH)
    let stretched := Img.resize resized (pyInt edgeStripPoints) (pyInt nH)
    if pageNum % 2 = 0 then
      .ok (some stretched, ⟨nW, nH, cRect, [(sideStripRectRecto nW nH, stretched)]⟩)
    else
      match prev with
      | none => .error (.sequencing "Even page without previous slice!")
      | some p =>
        .ok (prev, ⟨nW, nH, cRect, [(sideStripRectVerso nH, Img.mirror p)]⟩)

/-- Runs `sidePageStep` for page indices `i, i+1, ..., i+n-1`. -/
def sideGo (cfg : SideCfg) (i n : ℕ) (prev : Option Img) :
    Except Err (List PageOut) :=
  match n with
  | 0 => .ok []
  | n + 1 =>
    match sidePageStep cfg i prev with
    | .error e => .error e
    | .ok (prev2, page) =>
      match sideGo cfg (i + 1) n prev2 with
      | .error e => .error e
      | .ok rest => .ok (page :: rest)

/-- `process_pdf_files` (app.py lines 52-184): `previous_slice = None`, then the
page loop; an uncaught exception is reported as an error status. -/
def sideRun (cfg : SideCfg) : Except Err (List PageOut) :=
  sideGo cfg 0 cfg.numPdfPages none

theorem sidePageStep_zero_div (cfg : SideCfg) (i : ℕ) (prev : Option Img)
    (hz : pageThicknessLookup cfg.pageType.toLower * ((leavesOf cfg : ℕ) : ℚ) = 0) :
    sidePageStep cfg i prev = .error .zeroDivision := by
  simp only [sidePageStep]
  rw [if_pos hz]

theorem sidePageStep_even (cfg : SideCfg) (i : ℕ) (prev : Option Img) (hi : i % 2 = 0)
    (hz : ¬ pageThicknessLookup cfg.pageType.toLower * ((leavesOf cfg : ℕ) : ℚ) = 0) :
    ∃ s pg, sidePageStep cfg i prev = .ok (some s, pg) := by
  simp only [sidePageStep]
  rw [if_neg hz, if_pos hi]
  exact ⟨_, _, rfl⟩

theorem sidePageStep_odd_some (cfg : SideCfg) (i : ℕ) (p : Img) (hi : ¬ i % 2 = 0)
    (hz : ¬ pageThicknessLookup cfg.pageType.toLower * ((leavesOf cfg : ℕ) : ℚ) = 0) :
    ∃ pg, sidePageStep cfg i (some p) = .ok (some p, pg) := by
  simp only [sidePageStep]
  rw [if_neg hz, if_neg hi]
  exact ⟨_, rfl⟩

theorem sidePageStep_ok_dims (cfg : SideCfg) (i : ℕ) (prev pr : Option Img) (pg : PageOut)
    (h : sidePageStep cfg i prev = .ok (pr, pg)) :
    pg.width = newWidth cfg.bleedType cfg.originalWidth
    ∧ pg.height = newHeight cfg.bleedType cfg.originalHeight
    ∧ pg.content = contentRect cfg.bleedType cfg.originalWidth cfg.originalHeight i := by
  simp only [sidePageStep] at h
  split at h
  · exact absurd h (by simp)
  · split at h
    · rw [Except.ok.injEq, Prod.mk.injEq] at h
      rw [← h.2]
      exact ⟨rfl, rfl, rfl⟩
    · match prev with
      | none => exact absurd h (by simp)
      | some p =>
        rw [Except.ok.injEq, Prod.mk.injEq] at h
        rw [← h.2]
        exact ⟨rfl, rfl, rfl⟩

theorem sidePageStep_ok_isSome (cfg : SideCfg) (i : ℕ) (prev pr : Option Img) (pg : PageOut)
    (hprev : i % 2 = 0 ∨ prev.isSome = true)
    (h : sidePageStep cfg i prev = .ok (pr, pg)) : pr.isSome = true := by
  simp only [sidePageStep] at h
  split at h
  · exact absurd h (by simp)
  · split at h
    · rw [Except.ok.injEq, Prod.mk.injEq] at h
      rw [← h.1]
      rfl
    · match prev with
      | none => exact absurd h (by simp)
      | some p =>
        rw [Except.ok.injEq, Prod.mk.injEq] at h
        rw [← h.1]
        rfl

theorem sideGo_ok_dims (cfg : SideCfg) : ∀ (n i : ℕ) (prev : Option Img) (out : List PageOut),
    sideGo cfg i n prev = .ok out →
    out.length = n
    ∧ ∀ p ∈ out, p.width = newWidth cfg.bleedType cfg.originalWidth
        ∧ p.height = newHeight cfg.bleedType cfg.originalHeight := by
  intro n
  induction n with
  | zero =>
    intro i prev out h
    simp only [sideGo, Except.ok.injEq] at h
    subst h
    simp
  | succ n ih =>
    intro i prev out h
    simp only [sideGo] at h
    cases hstep : sidePageStep cfg i prev with
    | error e => rw [hstep] at h; exact absurd h (by simp)
    | ok sp =>
      obtain ⟨pr, pg⟩ := sp
      rw [hstep] at h
      dsimp only at h
      cases hgo : sideGo cfg (i + 1) n pr with
      | error e => rw [hgo] at h; exact absurd h (by simp)
      | ok rest =>
        rw [hgo] at h
        dsimp only at h
        rw [Except.ok.injEq] at h
        subst h
        obtain ⟨hlen, hdims⟩ := ih (i + 1) pr rest hgo
        obtain ⟨hw, hh, _⟩ := sidePageStep_ok_dims cfg i prev pr pg hstep
        refine ⟨by simp [hlen], ?_⟩
        intro p hp
        rcases List.mem_cons.mp hp with hpe | hpm
        · subst hpe
          exact ⟨hw, hh⟩
        · exact hdims p hpm

theorem sideGo_total (cfg : SideCfg)
    (hz : ¬ pageThicknessLookup cfg.pageType.toLower * ((leavesOf cfg : ℕ) : ℚ) = 0) :
    ∀ (n i : ℕ) (prev : Option Img), (i % 2 = 0 ∨ prev.isSome = true) →
    ∃ out, sideGo cfg i n prev = .ok out := by
  intro n
  induction n with
  | zero =>
    intro i prev _
    exact ⟨[], rfl⟩
  | succ n ih =>
    intro i prev hprev
    by_cases hi : i % 2 = 0
    · obtain ⟨s, pg, hstep⟩ := sidePageStep_even cfg i prev hi hz
      obtain ⟨rest, hgo⟩ := ih (i + 1) (some s) (Or.inr rfl)
      exact ⟨pg :: rest, by simp only [sideGo]; rw [hstep]; dsimp only; rw [hgo]⟩
    · have hsome : prev.isSome = true := hprev.resolve_left hi
      obtain ⟨p, hp⟩ := Option.isSome_iff_exists.mp hsome
      subst hp
      obtain ⟨pg, hstep⟩ := sidePageStep_odd_some cfg i p hi hz
      obtain ⟨rest, hgo⟩ := ih (i + 1) (some p) (Or.inr rfl)
      exact ⟨pg :: rest, by simp only [sideGo]; rw [hstep]; dsimp only; rw [hgo]⟩

theorem sideGo_no_seq (cfg : SideCfg) : ∀ (n i : ℕ) (prev : Option Img),
    (i % 2 = 0 ∨ prev.isSome = true) → ∀ msg : String,
    sideGo cfg i n prev ≠ .error (.sequencing msg) := by
  intro n
  by_cases hz : pageThicknessLookup cfg.pageType.toLower * ((leavesOf cfg : ℕ) : ℚ) = 0
  · induction n with
    | zero => intro i prev _ msg; simp [sideGo]
    | succ n ih =>
      intro i prev _ msg
      simp only [sideGo]
      rw [sidePageStep_zero_div cfg i prev hz]
      dsimp only
      simp
  · intro i prev hprev msg
    obtain ⟨out, hout⟩ := sideGo_total cfg hz n i prev hprev
    rw [hout]
    simp

/-- Claim C10: in the side-edge loop of `process_pdf_files` the
verso-without-cached-strip branch is unreachable: the loop starts at page
index 0 (a recto), every even-indexed page caches a stretched strip before the
next odd-indexed page, so no run ever ends with the sequencing error. -/
theorem claim_C10 (cfg : SideCfg) (msg : String) :
    sideRun cfg ≠ .error (.sequencing msg) :=
  sideGo_no_seq cfg cfg.numPdfPages 0 none (Or.inl rfl) msg

/-- A concrete `process_pdf_files` request whose slice windows overrun the
artwork: the PDF has 4 pages but `num_pages = 2`, so `num_leaves = 1` and the
second leaf (pages 2-3) gets the window `[100, 200)` on a 100px-wide artwork. -/
def cfgOverrun : SideCfg :=
  ⟨4, 432, 648, 100, 50, 2, none, "standard", .add_bleed⟩

theorem cfgOverrun_total_ne_zero :
    ¬ pageThicknessLookup cfgOverrun.pageType.toLower * ((leavesOf cfgOverrun : ℕ) : ℚ) = 0 := by
  intro h
  have h1 : (leavesOf cfgOverrun : ℕ) = 1 := rfl
  rw [h1, Nat.cast_one, mul_one] at h
  exact absurd h (ne_of_gt (pageThicknessLookup_pos _))

/-- Claim C5 (counterexample): with `cfgOverrun` the slice window of leaf 1
ends at pixel 200, beyond the 100px artwork width, yet the run completes
successfully — there is no bounds check and no `GeometryError`; `Image.crop`
silently pads the out-of-bounds region. -/
theorem claim_C5_counterexample :
    ((cfgOverrun.edgeWidth : ℤ) <
        sliceXEnd 1 (singleLeafThicknessPixels cfgOverrun.edgeWidth
          (pageThicknessLookup cfgOverrun.pageType.toLower) (leavesOf cfgOverrun)))
    ∧ (sideRun cfgOverrun).isOk = true := by
  constructor
  · have hw : singleLeafThicknessPixels cfgOverrun.edgeWidth
        (pageThicknessLookup cfgOverrun.pageType.toLower) (leavesOf cfgOverrun) = 100 := by
      rw [show leavesOf cfgOverrun = 1 from rfl, show cfgOverrun.edgeWidth = 100 from rfl]
      exact sliceWidth_any_type_one_leaf cfgOverrun.pageType.toLower
    rw [hw]
    decide
  · obtain ⟨out, hout⟩ := sideGo_total cfgOverrun cfgOverrun_total_ne_zero 4 0 none (Or.inl rfl)
    unfold sideRun
    rw [show cfgOverrun.numPdfPages = 4 from rfl, hout]
    rfl

/-- Claim C5 (amended): when a slice window end exceeds the artwork width the
run does NOT stop with a hard error: the code has no bounds check (`Image.crop`
pads silently), and every run with a nonzero total thickness completes and
returns a composited document. -/
theorem claim_C5_amended (cfg : SideCfg)
    (hz : ¬ pageThicknessLookup cfg.pageType.toLower * ((leavesOf cfg : ℕ) : ℚ) = 0) :
    (sideRun cfg).isOk = true := by
  obtain ⟨out, hout⟩ := sideGo_total cfg hz cfg.numPdfPages 0 none (Or.inl rfl)
  unfold sideRun
  rw [hout]
  rfl

theorem claim_C5_amended_witness :
    (¬ pageThicknessLookup cfgOverrun.pageType.toLower * ((leavesOf cfgOverrun : ℕ) : ℚ) = 0)
    ∧ (sideRun cfgOverrun).isOk = true :=
  ⟨cfgOverrun_total_ne_zero, claim_C5_amended cfgOverrun cfgOverrun_total_ne_zero⟩

/-- One output page of `process_pdf_simple` (api/process-python.py lines
133-160): canvas dimensions, content rectangle, and the rectangles passed to
`draw_rect` (the simplified edge placeholder), in order. -/
structure SimplePage where
  width : ℚ
  height : ℚ
  content : Rect
  drawn : List Rect
deriving DecidableEq

/-- The inputs of `process_pdf_simple` (api/process-python.py line 87) read by
its loop; `hasSideImg` is whether `edge_imgs.get('side')` is truthy. -/
structure SimpleCfg where
  numPdfPages : ℕ
  originalWidth : ℚ
  originalHeight : ℚ
  hasSideImg : Bool
  numPages : ℕ
  pageType : String
  bleedType : BleedType
deriving DecidableEq

/-- Loop body of `process_pdf_simple` (api/process-python.py lines 133-160):
pure per-page computation — `previous_slice` is assigned `None` once and never
updated or read. -/
def simplePage (cfg : SimpleCfg) (pageNum : ℕ) : SimplePage :=
  let nW := newWidth cfg.bleedType cfg.originalWidth
  let nH := newHeight cfg.bleedType cfg.originalHeight
  let cRect := contentRect cfg.bleedType cfg.originalWidth cfg.originalHeight pageNum
  if cfg.hasSideImg then
    if pageNum % 2 = 0 then ⟨nW, nH, cRect, [sideStripRectRecto nW nH]⟩
    else ⟨nW, nH, cRect, [sideStripRectVerso nH]⟩
  else ⟨nW, nH, cRect, []⟩

/-- `process_pdf_simple` (api/process-python.py line 133): the page loop runs
over `range(min(len(pdf_doc), 10))` — output is capped at 10 pages. -/
def simpleRun (cfg : SimpleCfg) : List SimplePage :=
  (List.range (min cfg.numPdfPages 10)).map (simplePage cfg)

theorem simpleRun_length (cfg : SimpleCfg) :
    (simpleRun cfg).length = min cfg.numPdfPages 10 := by
  simp [simpleRun]

theorem simplePage_dims (cfg : SimpleCfg) (i : ℕ) :
    (simplePage cfg i).width = newWidth cfg.bleedType cfg.originalWidth
    ∧ (simplePage cfg i).height = newHeight cfg.bleedType cfg.originalHeight := by
  simp only [simplePage]
  split
  · split
    · exact ⟨rfl, rfl⟩
    · exact ⟨rfl, rfl⟩
  · exact ⟨rfl, rfl⟩

/-- A 12-page input document for `process_pdf_simple`. -/
def cfgTwelve : SimpleCfg := ⟨12, 432, 648, true, 30, "standard", .add_bleed⟩

/-- Claim C4 (counterexample): `process_pdf_simple` caps its loop at
`min(len(pdf_doc), 10)` pages, so a 12-page input yields a 10-page output, not
a document with the same page count. -/
theorem claim_C4_counterexample :
    (simpleRun cfgTwelve).length ≠ cfgTwelve.numPdfPages := by
  rw [simpleRun_length]
  decide

/-- Claim C4 (amended): `process_pdf_files` produces exactly one output page
per input page, each created at the new canvas dimensions; but
`process_pdf_simple` (api/process-python.py) caps its output at
`min(inputPages, 10)` pages (each still at the canvas dimensions). -/
theorem claim_C4_amended :
    (∀ (cfg : SideCfg) (out : List PageOut), sideRun cfg = .ok out →
      out.length = cfg.numPdfPages
      ∧ ∀ p ∈ out, p.width = newWidth cfg.bleedType cfg.originalWidth
          ∧ p.height = newHeight cfg.bleedType cfg.originalHeight)
    ∧ (∀ cfg : SimpleCfg, (simpleRun cfg).length = min cfg.numPdfPages 10
        ∧ ∀ p ∈ simpleRun cfg, p.width = newWidth cfg.bleedType cfg.originalWidth
            ∧ p.height = newHeight cfg.bleedType cfg.originalHeight) := by
  constructor
  · intro cfg out h
    exact sideGo_ok_dims cfg cfg.numPdfPages 0 none out h
  · intro cfg
    refine ⟨simpleRun_length cfg, ?_⟩
    intro p hp
    obtain ⟨i, _, hip⟩ := List.mem_map.mp hp
    rw [← hip]
    exact simplePage_dims cfg i

/-- An empty input document: `process_pdf_files` returns an empty output. -/
def cfgEmpty : SideCfg := ⟨0, 432, 648, 100, 50, 2, none, "standard", .add_bleed⟩

theorem claim_C4_amended_witness :
    ((List.length ([] : List PageOut) = cfgEmpty.numPdfPages
        ∧ ∀ p ∈ ([] : List PageOut), p.width = newWidth cfgEmpty.bleedType cfgEmpty.originalWidth
            ∧ p.height = newHeight cfgEmpty.bleedType cfgEmpty.originalHeight))
    ∧ ((simpleRun cfgTwelve).length = min cfgTwelve.numPdfPages 10
        ∧ ∀ p ∈ simpleRun cfgTwelve, p.width = newWidth cfgTwelve.bleedType cfgTwelve.originalWidth
            ∧ p.height = newHeight cfgTwelve.bleedType cfgTwelve.originalHeight) :=
  ⟨claim_C4_amended.1 cfgEmpty [] rfl, claim_C4_amended.2 cfgTwelve⟩

/-- The inputs of `process_pdf` (api/process-pdf.py line 76) read by its loop:
`sideImg` is `edge_imgs.get('side')` with the decoded image's pixel
dimensions when a side image was supplied. -/
structure ApiCfg where
  numPdfPages : ℕ
  originalWidth : ℚ
  originalHeight : ℚ
  sideImg : Option (ℕ × ℕ)
  numPages : ℕ
  pageType : String
  bleedType : BleedType
deriving DecidableEq

/-- Loop body of `process_pdf` (api/process-pdf.py lines 117-186).  Unlike
app.py, a verso page with no cached `previous_slice` does NOT raise: the code
executes `continue` (line 173), emitting the page with no edge strip. -/
def apiPageStep (cfg : ApiCfg) (pageNum : ℕ) (prev : Option Img) :
    Except Err (Option Img × PageOut) :=
  let nW := newWidth cfg.bleedType cfg.originalWidth
  let nH := newHeight cfg.bleedType cfg.originalHeight
  let cRect := contentRect cfg.bleedType cfg.originalWidth cfg.originalHeight pageNum
  match cfg.sideImg with
  | none => .ok (prev, ⟨nW, nH, cRect, []⟩)
  | some (ew, eh) =>
    let t := pageThicknessLookup cfg.pageType.toLower
    let L := (cfg.numPages + 1) / 2
    if t * (L : ℚ) = 0 then .error .zeroDivision
    else
      let w := singleLeafThicknessPixels ew t L
      let leafNumber := pageNum / 2
      let pageSlice := Img.crop (Img.art .side) (sliceXStart leafNumber w) 0
        (sliceXEnd leafNumber w) (eh : ℤ)
      let resized := Img.resize pageSlice w (pyInt nH)
      let stretched := Img.resize resized (pyInt edgeStripPoints) (pyInt nH)
      if pageNum % 2 = 0 then
        .ok (some stretched, ⟨nW, nH, cRect, [(sideStripRectRecto nW nH, stretched)]⟩)
      else
        match prev with
        | none => .ok (prev, ⟨nW, nH, cRect, []⟩)
        | some p => .ok (prev, ⟨nW, nH, cRect, [(sideStripRectVerso nH, Img.mirror p)]⟩)

/-- Runs `apiPageStep` for page indices `i, i+1, ..., i+n-1`. -/
def apiGo (cfg : ApiCfg) (i n : ℕ) (prev : Option Img) : Except Err (List PageOut) :=
  match n with
  | 0 => .ok []
  | n + 1 =>
    match apiPageStep cfg i prev with
    | .error e => .error e
    | .ok (prev2, page) =>
      match apiGo cfg (i + 1) n prev2 with
      | .error e => .error e
      | .ok rest => .ok (page :: rest)

/-- `process_pdf` (api/process-pdf.py lines 76-193). -/
def apiRun (cfg : ApiCfg) : Except Err (List PageOut) :=
  apiGo cfg 0 cfg.numPdfPages none

/-- Concrete inputs for the two `process_pdf` variants: a 30-page document
with a 1000 × 800 side artwork, standard paper, added bleed. -/
def cfgApiStd : ApiCfg := ⟨30, 432, 648, some (1000, 800), 30, "standard", .add_bleed⟩

/-- The same request for app.py's `process_pdf_files`. -/
def cfgServiceStd : SideCfg := ⟨30, 432, 648, 1000, 800, 30, none, "standard", .add_bleed⟩

/-- Claim C1: at a verso page reached with no cached recto strip, the two
implementations diverge: api/process-pdf.py's `process_pdf` silently emits the
page with no edge strip (`continue`), while app.py's `process_pdf_files`
raises `ValueError("Even page without previous slice!")` — the sequencing
failure the spec requires. -/
theorem claim_C1_divergence :
    apiPageStep cfgApiStd 1 none =
      .ok (none, ⟨newWidth .add_bleed 432, newHeight .add_bleed 648,
        contentRect .add_bleed 432 648 1, []⟩)
    ∧ sidePageStep cfgServiceStd 1 none =
        .error (.sequencing "Even page without previous slice!") := by
  have hznat : (((30 + 1) / 2 : ℕ) : ℚ) ≠ 0 := by norm_num
  constructor
  · have hz : ¬ pageThicknessLookup (String.toLower "standard") * (((30 + 1) / 2 : ℕ) : ℚ) = 0 := by
      intro h
      rcases mul_eq_zero.mp h with h1 | h2
      · exact absurd h1 (ne_of_gt (pageThicknessLookup_pos _))
      · exact absurd h2 hznat
    simp only [apiPageStep]
    dsimp only [cfgApiStd]
    rw [if_neg hz, if_neg (by norm_num : ¬ (1 : ℕ) % 2 = 0)]
  · have hz : ¬ pageThicknessLookup cfgServiceStd.pageType.toLower *
        ((leavesOf cfgServiceStd : ℕ) : ℚ) = 0 := by
      intro h
      rcases mul_eq_zero.mp h with h1 | h2
      · exact absurd h1 (ne_of_gt (pageThicknessLookup_pos _))
      · rw [show (leavesOf cfgServiceStd : ℕ) = (30 + 1) / 2 from rfl] at h2
        exact absurd h2 hznat
    simp only [sidePageStep]
    rw [if_neg hz, if_neg (by norm_num : ¬ (1 : ℕ) % 2 = 0)]

/-- `edge_type` parameter of `process_pdf_files_multi_edge`: `"side-only"` or
anything else (all-edges). -/
inductive EdgeType where
  | sideOnly
  | allEdges
deriving DecidableEq

/-- The inputs of `process_pdf_files_multi_edge` (app.py line 320) read by its
loop.  `sideImg`, `topImg`, `bottomImg` are the pixel dimensions of the decoded
edge images when the corresponding key is present in `edge_files_dict`. -/
structure MultiCfg where
  numPdfPages : ℕ
  originalWidth : ℚ
  originalHeight : ℚ
  sideImg : Option (ℕ × ℕ)
  topImg : Option (ℕ × ℕ)
  bottomImg : Option (ℕ × ℕ)
  numPages : ℕ
  pageType : String
  bleedType : BleedType
  edgeType : EdgeType
deriving DecidableEq

/-- `num_leaves = (num_pages + 1) // 2` (app.py line 340). -/
def multiLeaves (cfg : MultiCfg) : ℕ := (cfg.numPages + 1) / 2

/-- Mirror-cache state during a multi-edge run.  `previous_slice` (side) is a
local variable of the function; `previous_top_slice` and
`previous_bottom_slice` live in `globals()` — the interpreter's process-wide
module namespace (app.py lines 462-469, 502-509). -/
structure MState where
  prevSide : Option Img
  prevTop : Option Img
  prevBottom : Option Img
deriving DecidableEq

/-- Top-edge section of the all-edges branch (app.py lines 441-478): on recto
pages a fresh horizontal slice is cut at `y ∈ [leaf*spx, (leaf+1)*spx)`,
resized and stored in the `previous_top_slice` global; on verso pages the
global is mirrored, and its absence raises
`ValueError("Left page without previous top slice!")`. -/
def topAction (cfg : MultiCfg) (pageNum : ℕ) (prevTop : Option Img) :
    Except Err (Option Img × List (Rect × Img)) :=
  match cfg.topImg with
  | none => .ok (prevTop, [])
  | some (tw, th) =>
    let t := pageThicknessLookup cfg.pageType.toLower
    let L := multiLeaves cfg
    let nW := newWidth cfg.bleedType cfg.originalWidth
    if pageNum % 2 = 0 then
      if t * (L : ℚ) = 0 then .error .zeroDivision
      else
        let spx := singleLeafThicknessPixels th t L
        let leafNumber := pageNum / 2
        let sl := Img.crop (Img.art .top) 0 (sliceXStart leafNumber spx) (tw : ℤ)
          (sliceXEnd leafNumber spx)
        let resized := Img.resize sl (pyInt nW) spx
        let stretched := Img.resize resized (pyInt nW) (pyInt edgeStripPoints)
        .ok (some stretched, [(topStripRect nW, stretched)])
    else
      match prevTop with
      | none => .error (.sequencing "Left page without previous top slice!")
      | some p => .ok (prevTop, [(topStripRect nW, Img.mirror p)])

/-- Bottom-edge section of the all-edges branch (app.py lines 481-519),
symmetric to `topAction` with the `previous_bottom_slice` global and the
bottom strip rectangle. -/
def bottomAction (cfg : MultiCfg) (pageNum : ℕ) (prevBottom : Option Img) :
    Except Err (Option Img × List (Rect × Img)) :=
  match cfg.bottomImg with
  | none => .ok (prevBottom, [])
  | some (bw, bh) =>
    let t := pageThicknessLookup cfg.pageType.toLower
    let L := multiLeaves cfg
    let nW := newWidth cfg.bleedType cfg.originalWidth
    let nH := newHeight cfg.bleedType cfg.originalHeight
    if pageNum % 2 = 0 then
      if t * (L : ℚ) = 0 then .error .zeroDivision
      else
        let spx := singleLeafThicknessPixels bh t L
        let leafNumber := pageNum / 2
        let sl := Img.crop (Img.art .bottom) 0 (sliceXStart leafNumber spx) (bw : ℤ)
          (sliceXEnd leafNumber spx)
        let resized := Img.resize sl (pyInt nW) spx
        let stretched := Img.resize resized (pyInt nW) (pyInt edgeStripPoints)
        .ok (some stretched, [(bottomStripRect nW nH, stretched)])
    else
      match prevBottom with
      | none => .error (.sequencing "Left page without previous bottom slice!")
      | some p => .ok (prevBottom, [(bottomStripRect nW nH, Img.mirror p)])

/-- Side-edge section of the all-edges branch (app.py lines 522-548): the
slice, resizes and stretch are computed before the parity branch (so the
division happens on every page), the stretched slice is kept in the local
`previous_slice` on recto pages and mirrored from it on verso pages. -/
def sideActionAll (cfg : MultiCfg) (pageNum : ℕ) (prevSide : Option Img) :
    Except Err (Option Img × List (Rect × Img)) :=
  match cfg.sideImg with
  | none => .ok (prevSide, [])
  | some (sw, sh) =>
    let t := pageThicknessLookup cfg.pageType.toLower
    let L := multiLeaves cfg
    let nW := newWidth cfg.bleedType cfg.originalWidth
    let nH := newHeight cfg.bleedType cfg.originalHeight
    if t * (L : ℚ) = 0 then .error .zeroDivision
    else
      let spx := singleLeafThicknessPixels sw t L
      let leafNumber := pageNum / 2
      let sl := Img.crop (Img.art .side) (sliceXStart leafNumber spx) 0
        (sliceXEnd leafNumber spx) (sh : ℤ)
      let resized := Img.resize sl spx (pyInt nH)
      let stretched := Img.resize resized (pyInt edgeStripPoints) (pyInt nH)
      if pageNum % 2 = 0 then
        .ok (some stretched, [(sideStripRectRecto nW nH, stretched)])
      else
        match prevSide with
        | none => .error (.sequencing "Even page without previous slice!")
        | some p => .ok (prevSide, [(sideStripRectVerso nH, Img.mirror p)])

/-- Side-only branch of the loop (app.py lines 400-433): same slicing as
`sideActionAll`; `edge_images['side']` raises `KeyError` when absent, which is
modelled at run start (`multiRun`) and kept here for totality. -/
def sideOnlyAction (cfg : MultiCfg) (pageNum : ℕ) (prevSide : Option Img) :
    Except Err (Option Img × List (Rect × Img)) :=
  match cfg.sideImg with
  | none => .error .keyError
  | some (sw, sh) =>
    let t := pageThicknessLookup cfg.pageType.toLower
    let L := multiLeaves cfg
    let nW := newWidth cfg.bleedType cfg.originalWidth
    let nH := newHeight cfg.bleedType cfg.originalHeight
    if t * (L : ℚ) = 0 then .error .zeroDivision
    else
      let spx := singleLeafThicknessPixels sw t L
      let leafNumber := pageNum / 2
      let sl := Img.crop (Img.art .side) (sliceXStart leafNumber spx) 0
        (sliceXEnd leafNumber spx) (sh : ℤ)
      let resized := Img.resize sl spx (pyInt nH)
      let stretched := Img.resize resized (pyInt edgeStripPoints) (pyInt nH)
      if pageNum % 2 = 0 then
        .ok (some stretched, [(sideStripRectRecto nW nH, stretched)])
      else
        match prevSide with
        | none => .error (.sequencing "Even page without previous slice!")
        | some p => .ok (prevSide, [(sideStripRectVerso nH, Img.mirror p)])

/-- The body of the page loop of `process_pdf_files_multi_edge` (app.py lines
369-548): content placement, then — per edge type — the edge sections in
source order (top, bottom, side). -/
def multiStep (cfg : MultiCfg) (pageNum : ℕ) (s : MState) :
    Except Err (MState × PageOut) :=
  let nW := newWidth cfg.bleedType cfg.originalWidth
  let nH := newHeight cfg.bleedType cfg.originalHeight
  let cRect := contentRect cfg.bleedType cfg.originalWidth cfg.originalHeight pageNum
  match cfg.edgeType with
  | .sideOnly =>
    match sideOnlyAction cfg pageNum s.prevSide with
    | .error e => .error e
    | .ok (ps, strips) => .ok (⟨ps, s.prevTop, s.prevBottom⟩, ⟨nW, nH, cRect, strips⟩)
  | .allEdges =>
    match topAction cfg pageNum s.prevTop with
    | .error e => .error e
    | .ok (pt, topStrips) =>
      match bottomAction cfg pageNum s.prevBottom with
      | .error e => .error e
      | .ok (pb, botStrips) =>
        match sideActionAll cfg pageNum s.prevSide with
        | .error e => .error e
        | .ok (ps, sideStrips) =>
          .ok (⟨ps, pt, pb⟩, ⟨nW, nH, cRect, topStrips ++ botStrips ++ sideStrips⟩)

/-- Runs `multiStep` for page indices `i, i+1, ..., i+n-1`. -/
def multiGo (cfg : MultiCfg) (i n : ℕ) (s : MState) : Except Err (List PageOut) :=
  match n with
  | 0 => .ok []
  | n + 1 =>
    match multiStep cfg i s with
    | .error e => .error e
    | .ok (s2, page) =>
      match multiGo cfg (i + 1) n s2 with
      | .error e => .error e
      | .ok rest => .ok (page :: rest)

/-- `process_pdf_files_multi_edge` (app.py lines 320-561), as a function of the
request inputs AND of the process-wide globals `previous_top_slice` /
`previous_bottom_slice` inherited from whatever ran earlier in the process.
The local `previous_slice` starts at `None`; side-only mode with no side file
dies on the `KeyError` of `edge_files_dict['side']` (line 349). -/
def multiRun (cfg : MultiCfg) (gTop gBottom : Option Img) : Except Err (List PageOut) :=
  if cfg.edgeType = .sideOnly ∧ cfg.sideImg = none then .error .keyError
  else multiGo cfg 0 cfg.numPdfPages ⟨none, gTop, gBottom⟩

/-- State components a later loop iteration can read: the side cache always,
and the top/bottom globals only in all-edges mode with the corresponding image
present. -/
def ReadEq (cfg : MultiCfg) (s1 s2 : MState) : Prop :=
  s1.prevSide = s2.prevSide
  ∧ (cfg.edgeType = .allEdges → cfg.topImg.isSome = true → s1.prevTop = s2.prevTop)
  ∧ (cfg.edgeType = .allEdges → cfg.bottomImg.isSome = true → s1.prevBottom = s2.prevBottom)

/-- Relates the outcomes of one edge section run from two mirror caches: same
error, or same strips with equal caches whenever the edge's image is present. -/
def ActRel (present : Bool) (r1 r2 : Except Err (Option Img × List (Rect × Img))) : Prop :=
  match r1, r2 with
  | .error e1, .error e2 => e1 = e2
  | .ok (a1, l1), .ok (a2, l2) => l1 = l2 ∧ (present = true → a1 = a2)
  | _, _ => False

theorem ActRel_refl (p : Bool) (r : Except Err (Option Img × List (Rect × Img))) :
    ActRel p r r := by
  match r with
  | .error e => exact rfl
  | .ok (a, l) => exact ⟨rfl, fun _ => rfl⟩

theorem topAction_even (cfg : MultiCfg) (i : ℕ) (a1 a2 : Option Img) (hi : i % 2 = 0) :
    ActRel cfg.topImg.isSome (topAction cfg i a1) (topAction cfg i a2) := by
  cases htop : cfg.topImg with
  | none => simp [topAction, htop, ActRel]
  | some d =>
    obtain ⟨tw, th⟩ := d
    simp only [topAction, htop]
    rw [if_pos hi, if_pos hi]
    by_cases hz : pageThicknessLookup cfg.pageType.toLower * ((multiLeaves cfg : ℕ) : ℚ) = 0
    · rw [if_pos hz]
      exact rfl
    · rw [if_neg hz]
      exact ⟨rfl, fun _ => rfl⟩

theorem topAction_odd (cfg : MultiCfg) (i : ℕ) (a1 a2 : Option Img)
    (ha : cfg.topImg.isSome = true → a1 = a2) :
    ActRel cfg.topImg.isSome (topAction cfg i a1) (topAction cfg i a2) := by
  cases htop : cfg.topImg with
  | none => simp [topAction, htop, ActRel]
  | some d =>
    have he : a1 = a2 := ha (by rw [htop]; rfl)
    rw [he]
    exact ActRel_refl _ _

theorem bottomAction_even (cfg : MultiCfg) (i : ℕ) (a1 a2 : Option Img) (hi : i % 2 = 0) :
    ActRel cfg.bottomImg.isSome (bottomAction cfg i a1) (bottomAction cfg i a2) := by
  cases hbot : cfg.bottomImg with
  | none => simp [bottomAction, hbot, ActRel]
  | some d =>
    obtain ⟨bw, bh⟩ := d
    simp only [bottomAction, hbot]
    rw [if_pos hi, if_pos hi]
    by_cases hz : pageThicknessLookup cfg.pageType.toLower * ((multiLeaves cfg : ℕ) : ℚ) = 0
    · rw [if_pos hz]
      exact rfl
    · rw [if_neg hz]
      exact ⟨rfl, fun _ => rfl⟩

theorem bottomAction_odd (cfg : MultiCfg) (i : ℕ) (a1 a2 : Option Img)
    (ha : cfg.bottomImg.isSome = true → a1 = a2) :
    ActRel cfg.bottomImg.isSome (bottomAction cfg i a1) (bottomAction cfg i a2) := by
  cases hbot : cfg.bottomImg with
  | none => simp [bottomAction, hbot, ActRel]
  | some d =>
    have he : a1 = a2 := ha (by rw [hbot]; rfl)
    rw [he]
    exact ActRel_refl _ _

/-- Relates the outcomes of one loop iteration from two mirror-cache states:
same error, or same output page with `ReadEq` successor states. -/
def StepRel (cfg : MultiCfg) (r1 r2 : Except Err (MState × PageOut)) : Prop :=
  match r1, r2 with
  | .error e1, .error e2 => e1 = e2
  | .ok (s1, o1), .ok (s2, o2) => o1 = o2 ∧ ReadEq cfg s1 s2
  | _, _ => False

theorem multiStep_rel_sideOnly (cfg : MultiCfg) (i : ℕ) (s1 s2 : MState)
    (het : cfg.edgeType = .sideOnly) (hs : s1.prevSide = s2.prevSide) :
    StepRel cfg (multiStep cfg i s1) (multiStep cfg i s2) := by
  simp only [multiStep, het]
  rw [hs]
  cases hr : sideOnlyAction cfg i s2.prevSide with
  | error e => exact rfl
  | ok al =>
    obtain ⟨a, l⟩ := al
    exact ⟨rfl, rfl, fun hA => absurd (het.symm.trans hA) (by simp),
      fun hA => absurd (het.symm.trans hA) (by simp)⟩

theorem multiStep_rel_allEdges (cfg : MultiCfg) (i : ℕ) (s1 s2 : MState)
    (het : cfg.edgeType = .allEdges)
    (htA : ActRel cfg.topImg.isSome (topAction cfg i s1.prevTop) (topAction cfg i s2.prevTop))
    (hbA : ActRel cfg.bottomImg.isSome
      (bottomAction cfg i s1.prevBottom) (bottomAction cfg i s2.prevBottom))
    (hs : s1.prevSide = s2.prevSide) :
    StepRel cfg (multiStep cfg i s1) (multiStep cfg i s2) := by
  simp only [multiStep, het]
  rw [hs]
  cases ht1 : topAction cfg i s1.prevTop with
  | error e1 =>
    cases ht2 : topAction cfg i s2.prevTop with
    | error e2 =>
      rw [ht1, ht2] at htA
      have he : e1 = e2 := htA
      rw [he]
      exact rfl
    | ok al2 =>
      rw [ht1, ht2] at htA
      exact False.elim htA
  | ok al1 =>
    obtain ⟨t1, tl1⟩ := al1
    cases ht2 : topAction cfg i s2.prevTop with
    | error e2 =>
      rw [ht1, ht2] at htA
      exact False.elim htA
    | ok al2 =>
      obtain ⟨t2, tl2⟩ := al2
      rw [ht1, ht2] at htA
      obtain ⟨htl, hta⟩ := htA
      cases hb1 : bottomAction cfg i s1.prevBottom with
      | error e1 =>
        cases hb2 : bottomAction cfg i s2.prevBottom with
        | error e2 =>
          rw [hb1, hb2] at hbA
          have he : e1 = e2 := hbA
          rw [he]
          exact rfl
        | ok bl2 =>
          rw [hb1, hb2] at hbA
          exact False.elim hbA
      | ok bl1 =>
        obtain ⟨b1, bll1⟩ := bl1
        cases hb2 : bottomAction cfg i s2.prevBottom with
        | error e2 =>
          rw [hb1, hb2] at hbA
          exact False.elim hbA
        | ok bl2 =>
          obtain ⟨b2, bll2⟩ := bl2
          rw [hb1, hb2] at hbA
          obtain ⟨hbl, hba⟩ := hbA
          cases hsd : sideActionAll cfg i s2.prevSide with
          | error e => exact rfl
          | ok sl =>
            obtain ⟨sa, sll⟩ := sl
            rw [htl, hbl]
            exact ⟨rfl, rfl, fun _ hp => hta hp, fun _ hp => hba hp⟩

theorem multiGo_rel (cfg : MultiCfg) : ∀ (n i : ℕ) (s1 s2 : MState),
    (i % 2 = 0 → s1.prevSide = s2.prevSide) →
    (¬ i % 2 = 0 → ReadEq cfg s1 s2) →
    multiGo cfg i n s1 = multiGo cfg i n s2 := by
  intro n
  induction n with
  | zero => intro i s1 s2 _ _; rfl
  | succ n ih =>
    intro i s1 s2 h0 h1
    have hside : s1.prevSide = s2.prevSide := by
      by_cases hi : i % 2 = 0
      · exact h0 hi
      · exact (h1 hi).1
    have hrel : StepRel cfg (multiStep cfg i s1) (multiStep cfg i s2) := by
      cases het : cfg.edgeType with
      | sideOnly => exact multiStep_rel_sideOnly cfg i s1 s2 het hside
      | allEdges =>
        by_cases hi : i % 2 = 0
        · exact multiStep_rel_allEdges cfg i s1 s2 het
            (topAction_even cfg i _ _ hi) (bottomAction_even cfg i _ _ hi) hside
        · exact multiStep_rel_allEdges cfg i s1 s2 het
            (topAction_odd cfg i _ _ (fun hp => (h1 hi).2.1 het hp))
            (bottomAction_odd cfg i _ _ (fun hp => (h1 hi).2.2 het hp)) hside
    simp only [multiGo]
    cases hm1 : multiStep cfg i s1 with
    | error e1 =>
      cases hm2 : multiStep cfg i s2 with
      | error e2 =>
        rw [hm1, hm2] at hrel
        have he : e1 = e2 := hrel
        rw [he]
      | ok x =>
        rw [hm1, hm2] at hrel
        exact False.elim hrel
    | ok x1 =>
      obtain ⟨s1n, o1⟩ := x1
      cases hm2 : multiStep cfg i s2 with
      | error e2 =>
        rw [hm1, hm2] at hrel
        exact False.elim hrel
      | ok x2 =>
        obtain ⟨s2n, o2⟩ := x2
        rw [hm1, hm2] at hrel
        obtain ⟨ho, hre⟩ := hrel
        rw [ho]
        dsimp only
        rw [ih (i + 1) s1n s2n (fun _ => hre.1) (fun _ => hre)]

/-- Claim C8: the observable result of a `process_pdf_files_multi_edge` run
depends only on that run's inputs.  Although `previous_top_slice` and
`previous_bottom_slice` live in the process-wide `globals()`, page 0 (a recto)
repopulates them before any verso page reads them, so two runs with identical
inputs return identical results — including which error, if any — regardless
of the global mirror state left behind by earlier runs in the same process. -/
theorem claim_C8 (cfg : MultiCfg) (g1Top g1Bottom g2Top g2Bottom : Option Img) :
    multiRun cfg g1Top g1Bottom = multiRun cfg g2Top g2Bottom := by
  unfold multiRun
  split
  · rfl
  · exact multiGo_rel cfg cfg.numPdfPages 0 ⟨none, g1Top, g1Bottom⟩ ⟨none, g2Top, g2Bottom⟩
      (fun _ => rfl) (fun h => absurd rfl h)

end PrintedEdges
